import Mathlib

/-!
Verification of the budget classification, reconciliation and flow-graph
engine of the `budgetis` repository.

Shallow embedding conventions:
* Python `Decimal` values are modelled as exact rationals (`Rat`); the
  monetary data of the engine is exact decimal arithmetic, and every
  comparison the code performs on them is exact.
* Django querysets over `Account` rows are modelled as `List Account`;
  `filter`/`aggregate(Sum(..))` become `List.filter`/`List.sum` (the ORM's
  `Sum` of no rows is `NULL`, which the code coalesces to `Decimal("0")`
  with `or Decimal("0")`, i.e. the empty sum is `0` in both worlds).
* Python exceptions (`ValueError` of `int(..)`, `TypeError` of unorderable
  comparisons) are modelled with `Option`: `none` is a raised exception.
-/

namespace Budgetis

/-- Reference to `accounting.models.MetaGroup` (`code` is a small integer,
unique; `label` a string). -/
structure MetaGroupRef where
  code : Int
  label : String
  deriving Repr, DecidableEq

/-- Reference to `accounting.models.SuperGroup`; its `metagroup` foreign key
is nullable (`on_delete=SET_NULL`). -/
structure SuperGroupRef where
  code : Int
  label : String
  metagroup : Option MetaGroupRef
  deriving Repr, DecidableEq

/-- Reference to `accounting.models.AccountGroup`; `code` is a `CharField`
(a string!), and the `supergroup` foreign key is nullable. -/
structure AccountGroupRef where
  id : Int
  code : String
  label : String
  supergroup : Option SuperGroupRef
  deriving Repr, DecidableEq

/-- Shallow embedding of `accounting.models.Account`.  `sub_account` is a
nullable integer field (`SmallIntegerField(null=True)`); `charges` and
`revenues` are `DecimalField`s, modelled as exact rationals.  The
`visible_in_report` flag is commented out in `models.py` but is filtered on
by the explorer queries and toggled by the admin, so the deployed schema
carries it; it is modelled as a plain boolean.  Presentation-only fields
(`label`, `expected_type`, timestamps, comment counts) are omitted: no
aggregation or reconciliation rule reads them. -/
structure Account where
  id : Int
  year : Int
  function : Int
  nature : Int
  sub_account : Option Int
  is_budget : Bool
  charges : Rat
  revenues : Rat
  group : Option AccountGroupRef
  visible_in_report : Bool
  deriving Repr, DecidableEq

/-- Digits of a decimal literal to a natural number (little helper for
`pyInt`). -/
def digitsToNat (ds : List Char) : Nat :=
  ds.foldl (fun acc c => acc * 10 + (c.toNat - 48)) 0

/-- Sign and digit run to an integer, `none` if the run is empty or
contains a non-digit. -/
def pyIntOfDigits (sign : Int) (ds : List Char) : Option Int :=
  if ds ≠ [] ∧ ds.all Char.isDigit then some (sign * (digitsToNat ds : Int))
  else none

/-- Strip leading and trailing whitespace from a character list (model of
`str.strip()` as performed by `int(..)`). -/
def trimChars (cs : List Char) : List Char :=
  ((cs.dropWhile Char.isWhitespace).reverse.dropWhile Char.isWhitespace).reverse

/-- Model of Python `int(s)` on decimal string literals: surrounding
whitespace is ignored, an optional sign is followed by one or more digits;
anything else raises `ValueError` (modelled as `none`).  (CPython also
accepts underscore digit grouping; no code in this repository relies on
it, so it is not modelled.) -/
def pyInt (s : String) : Option Int :=
  match trimChars s.toList with
  | '-' :: rest => pyIntOfDigits (-1) rest
  | '+' :: rest => pyIntOfDigits 1 rest
  | rest => pyIntOfDigits 1 rest

/-- Model of Python `str.split(".")`: split a character list at every
`'.'`; the empty string splits to one empty part. -/
def splitDot : List Char → List (List Char)
  | [] => [[]]
  | c :: cs =>
    let r := splitDot cs
    if c = '.' then [] :: r
    else
      match r with
      | [] => [[c]]
      | h :: t => (c :: h) :: t

example : splitDot "720.351".toList = ["720".toList, "351".toList] := by decide
example : splitDot "".toList = ["".toList] := by decide
example : splitDot "1.2.".toList = ["1".toList, "2".toList, "".toList] := by decide

/-- `finance.builders.parse_fn_code`: split on `'.'`; raise (`none`) when
there are fewer than two parts or the function/nature parts are not
integers; the sub-account is the *third* part when one exists (`parts[2]`,
any further parts are silently ignored) and stays a string. -/
def parse_fn_code (code : String) : Option (Int × Int × Option String) :=
  match splitDot code.toList with
  | [] => none
  | [_] => none
  | p0 :: p1 :: rest => do
    let f ← pyInt (String.mk p0)
    let n ← pyInt (String.mk p1)
    pure (f, n, (rest.head?).map String.mk)

example : parse_fn_code "720.351" = some (720, 351, none) := by decide
example : parse_fn_code "460.352.1" = some (460, 352, some "1") := by decide
example : parse_fn_code "abc" = none := by decide
example : parse_fn_code "1.x" = none := by decide
example : parse_fn_code "1.2.3.4" = some (1, 2, some "3") := by decide

/-- Field names of the Django `Account` model (`accounting/models.py`),
as visible to `Model._meta.get_field`.  Note that the sub-account column is
named `sub_account`, **not** `subaccount`. -/
def accountFieldNames : List String :=
  ["id", "created_at", "updated_at", "year", "function", "nature",
   "sub_account", "label", "group", "is_budget", "charges", "revenues",
   "expected_type", "visible_in_report"]

/-- `finance.builders.q_from_code`: build the row predicate for one dotted
code.  The base condition is `function = F AND nature = N`.  When a
non-empty sub-account part is present the code *probes* the model for a
field literally named `"subaccount"`; the model's field is `sub_account`,
so `get_field("subaccount")` raises `FieldDoesNotExist` and the function
falls back to the base predicate — the sub-account part is silently
ignored.  (The `Q(subaccount=sub)` branch is dead code; it is modelled by
comparing the parsed sub-account string against the integer field, which
is how Django would coerce it.)  `none` is a `ValueError` escaping from
`parse_fn_code`. -/
def q_from_code (code : String) : Option (Account → Bool) :=
  match parse_fn_code code with
  | none => none
  | some (fn, nat, sub) =>
    let base : Account → Bool := fun a => a.function == fn && a.nature == nat
    match sub with
    | some s =>
      if s ≠ "" then
        if "subaccount" ∈ accountFieldNames then
          some (fun a => base a && a.sub_account == pyInt s)
        else
          some base
      else some base
    | none => some base

/-- `finance.builders.q_from_codes`: OR of the per-code predicates.
Django's empty `Q()` matches every row, and `Q()._combine` absorbs the
initial empty disjunct as soon as one real code is OR-ed in. -/
def q_from_codes (codes : List String) : Option (Account → Bool) := do
  let preds ← codes.mapM q_from_code
  pure (fun a => if preds.isEmpty then true else preds.any (fun q => q a))

/-- `finance.builders.sum_field`: filter then sum a monetary field;
`aggregate(Sum(field))` of no rows is `NULL`, coalesced to zero by
`or Decimal("0")`. -/
def sum_field (qs : List Account) (flt : Account → Bool) (field : Account → Rat) : Rat :=
  ((qs.filter flt).map field).sum

/-- `finance.builders.sum_amount_for_codes`: zero for an empty code list,
otherwise the sum of `field` over rows matching any code. -/
def sum_amount_for_codes (qs : List Account) (codes : List String)
    (field : Account → Rat) : Option Rat :=
  if codes.isEmpty then some 0
  else do
    let flt ← q_from_codes codes
    pure (sum_field qs flt field)

/-- `finance.builders.codes_with_nature`: keep the codes whose nature part
equals the target (used for the `*.366` AISGE variants). -/
def codes_with_nature (codes : List String) (target : Int) : Option (List String) :=
  match codes with
  | [] => some []
  | c :: rest => do
    let (_f, n, _s) ← parse_fn_code c
    let r ← codes_with_nature rest target
    pure (if n == target then c :: r else r)

-- ----- Static taxonomy constants (`finance/builders.py`) --------------------

/-- `MIN_VAL`: the residual tolerance, the Python float `0.5`. -/
def MIN_VAL : Rat := 1 / 2

def SOCIAL_SECURITY : String := "720.351"
def PEREQUATION : String := "220.352"
def POLICE : String := "600.351"

def AISGE : List String :=
  ["500.352", "510.352", "510.366", "520.352", "520.366", "520.352",
   "530.351", "530.451", "550.352", "560.352", "570.352"]

def APEC : List String := ["460.352", "460.352.1"]

def TRANSPORTS_REGION : String := "180.351"

def ASSOCIATIONS : List String :=
  ["160.352", "320.352", "320.352.1", "440.352", "540.352", "580.352",
   "650.352", "660.352", "710.352", "720.352", "810.352", "810.352.1"]

example : (AISGE ++ APEC ++ [TRANSPORTS_REGION] ++ ASSOCIATIONS
    ++ [SOCIAL_SECURITY, PEREQUATION, POLICE]).all
    (fun c => (parse_fn_code c).isSome) = true := by decide

/-- Django's `nature__range=(lo, hi)` — inclusive on both ends. -/
def natureInRange (a : Account) (lo hi : Int) : Bool :=
  lo ≤ a.nature && a.nature ≤ hi

/-- `IMPOTS_NATURE_EXCLUDE = (402, 404, 405)`. -/
def IMPOTS_NATURE_EXCLUDE : List Int := [402, 404, 405]

/-- `RENTALS_NATURE = (423, 425, 427)`. -/
def RENTALS_NATURE : List Int := [423, 425, 427]

/-- `INTERESTS_NATURE = (422, 424)`. -/
def INTERESTS_NATURE : List Int := [422, 424]

/-- Result of `finance.builders._compute_bucket_sums` (the returned dict;
keys `taxes_general`, `random_taxes`, `levies_usage`, `rentals`,
`interests_revenues`, `other_revenues`). -/
structure BucketSums where
  impots : Rat
  randoms : Rat
  levies : Rat
  rentals : Rat
  interests : Rat
  others : Rat
  deriving Repr, DecidableEq

/-- `finance.builders._compute_bucket_sums`: revenue totals per bucket over
the base queryset `nature__range=REVENUE_NATURE_RANGE` (400–499):
`IMPOTS` = 400–409 minus the exclusion triple, `randoms` = the exclusion
triple, `levies` = 430–439 (`TAXES_NATURE_RANGE`), `rentals`/`interests`
the fixed nature sets, `others` = the base minus the 400–409 and 430–439
ranges and minus the rental/interest natures. -/
def compute_bucket_sums (qs : List Account) : BucketSums :=
  let base := qs.filter (fun a => natureInRange a 400 499)
  { impots := ((base.filter (fun a => natureInRange a 400 409
        && !(IMPOTS_NATURE_EXCLUDE.contains a.nature))).map (·.revenues)).sum
    randoms := ((base.filter (fun a =>
        IMPOTS_NATURE_EXCLUDE.contains a.nature)).map (·.revenues)).sum
    levies := ((base.filter (fun a => natureInRange a 430 439)).map (·.revenues)).sum
    rentals := ((base.filter (fun a =>
        RENTALS_NATURE.contains a.nature)).map (·.revenues)).sum
    interests := ((base.filter (fun a =>
        INTERESTS_NATURE.contains a.nature)).map (·.revenues)).sum
    others := ((base.filter (fun a => !(natureInRange a 400 409)
        && !(natureInRange a 430 439)
        && !((RENTALS_NATURE ++ INTERESTS_NATURE).contains a.nature))).map
        (·.revenues)).sum }

/-- Result of `finance.builders.compute_canton_breakdown` (keys `social`,
`equalization`, `police`, `total`). -/
structure CantonBreakdown where
  social : Rat
  equalization : Rat
  police : Rat
  total : Rat
  deriving Repr, DecidableEq

/-- `finance.builders.compute_canton_breakdown`: charges of the three
explicit canton codes; every returned entry is clamped at zero with
`max(Decimal("0"), ·)` (the `total` is clamped after summing the
*unclamped* components). -/
def compute_canton_breakdown (qs : List Account) : Option CantonBreakdown := do
  let social ← sum_amount_for_codes qs [SOCIAL_SECURITY] (·.charges)
  let pereq ← sum_amount_for_codes qs [PEREQUATION] (·.charges)
  let police ← sum_amount_for_codes qs [POLICE] (·.charges)
  let total := social + pereq + police
  pure { social := max 0 social
         equalization := max 0 pereq
         police := max 0 police
         total := max 0 total }

/-- Result of `finance.builders.compute_intercos` (keys `aisge`, `apec`,
`transports_region`, `other_intercommunalities`, `total`). -/
structure IntercosBreakdown where
  aisge : Rat
  apec : Rat
  transports : Rat
  other : Rat
  total : Rat
  deriving Repr, DecidableEq

/-- `finance.builders.compute_intercos`: AISGE, APEC and regional-transport
charges by their explicit code lists; "other intercommunalities" is the
`nature__range=(350, 359)` base minus rows already matched by AISGE, APEC,
transports or the three canton codes.  (The `ASSOCIATIONS` list is *not*
excluded.)  Entries are clamped at zero like the canton breakdown. -/
def compute_intercos (qs : List Account) : Option IntercosBreakdown := do
  let q_aisge ← q_from_codes AISGE
  let q_apec ← q_from_codes APEC
  let q_trans ← q_from_codes [TRANSPORTS_REGION]
  let q_canton ← q_from_codes [SOCIAL_SECURITY, PEREQUATION, POLICE]
  let q_intercos_base : Account → Bool := fun a => natureInRange a 350 359
  let q_exclude : Account → Bool := fun a =>
    q_aisge a || q_apec a || q_trans a || q_canton a
  let q_intercos_autres : Account → Bool := fun a =>
    q_intercos_base a && !(q_exclude a)
  let aisge := sum_field qs q_aisge (·.charges)
  let apec := sum_field qs q_apec (·.charges)
  let trans := sum_field qs q_trans (·.charges)
  let autres := sum_field qs q_intercos_autres (·.charges)
  let total := aisge + apec + trans + autres
  pure { aisge := max 0 aisge
         apec := max 0 apec
         transports := max 0 trans
         other := max 0 autres
         total := max 0 total }

/-- Result of `finance.builders.compute_commune_breakdown` (keys `wages`,
`goods_services`, `interests`, `aids`, `total`). -/
structure CommuneBreakdown where
  wages : Rat
  goods : Rat
  interests : Rat
  aids : Rat
  total : Rat
  deriving Repr, DecidableEq

/-- `finance.builders.compute_commune_breakdown`: commune-internal charges
by nature range — wages 301–309, goods 310–319, interests 320–329, aids
360–369 excluding the AISGE codes whose nature part is 366. -/
def compute_commune_breakdown (qs : List Account) : Option CommuneBreakdown := do
  let rng : Int → Int → Rat := fun lo hi =>
    ((qs.filter (fun a => natureInRange a lo hi)).map (·.charges)).sum
  let wages := rng 301 309
  let goods := rng 310 319
  let interests := rng 320 329
  let aisge_366_codes ← codes_with_nature AISGE 366
  let q_excl_aisge_366 ← if aisge_366_codes.isEmpty
    then pure (fun _ : Account => false)
    else q_from_codes aisge_366_codes
  let aids := sum_field qs
    (fun a => natureInRange a 360 369 && !(q_excl_aisge_366 a)) (·.charges)
  let total := wages + goods + interests + aids
  pure { wages := max 0 wages
         goods := max 0 goods
         interests := max 0 interests
         aids := max 0 aids
         total := max 0 total }

-- ----- Flow-graph builder (`finance/builders.py`) ---------------------------

/-- Stable node keys of `build_income_budget_canton_intercos_commune`. -/
def NODE_HOUSEHOLD : String := "household"
def NODE_CANTON : String := "canton"
def NODE_INTERCOS : String := "intercommunities"
def NODE_COMMUNE : String := "commune"
def NODE_RESULT : String := "result"
def KEY_SOCIAL : String := "social"
def KEY_EQUALIZATION : String := "equalization"
def KEY_POLICE : String := "police"
def KEY_AISGE : String := "aisge"
def KEY_APEC : String := "apec"
def KEY_TRANSPORTS : String := "transports_region"
def KEY_INTERCOS_OTHER : String := "other_intercommunalities"
def KEY_WAGES : String := "wages"
def KEY_GOODS : String := "goods_services"
def KEY_INTERESTS : String := "interests"
def KEY_AIDS : String := "aids"
def KEY_IMPOTS : String := "taxes_general"
def KEY_RANDOMS : String := "random_taxes"
def KEY_LEVIES : String := "levies_usage"
def KEY_RENTALS : String := "rentals"
def KEY_INTERESTS_REV : String := "interests_revenues"
def KEY_OTHERS_REV : String := "other_revenues"
def KEY_AMORT : String := "amortizations"
def KEY_FUNDS : String := "fund_allocations"
def KEY_PROFIT : String := "profit"

/-- A node of the built graph.  The Python node carries a rendered label
(`_node_label` formats the key's translated label together with a
`CHF…K/M` amount); the rendering is presentation-only, so a node is
modelled by its stable key, the amount it displays and its color. -/
structure SNode where
  key : String
  value : Rat
  color : String
  deriving Repr, DecidableEq

/-- A weighted directed edge (`links` entry).  The Python value is
`float(value)` of an exact `Decimal`; the conversion is presentation-only
and the exact value is kept. -/
structure SLink where
  source : Nat
  target : Nat
  value : Rat
  deriving Repr, DecidableEq

/-- The builder's mutable state: the `idx` key→position map and the
`labels`/`nodes`/`node_colors`/`links`/`link_colors` lists (the `labels`
list always mirrors `nodes` and is not duplicated here). -/
structure BuildSt where
  idx : List (String × Nat)
  nodes : List SNode
  node_colors : List String
  links : List SLink
  link_colors : List String
  deriving Repr, DecidableEq

def BuildSt.empty : BuildSt := ⟨[], [], [], [], []⟩

/-- `finance.builders._push_node`: append a node with a stable key; record
`idx[key] = len(labels)` (a later binding for the same key shadows an
earlier one, as in a dict assignment). -/
def push_node (st : BuildSt) (key : String) (value : Rat) (color : String) : BuildSt :=
  { st with
    idx := (key, st.nodes.length) :: st.idx
    nodes := st.nodes ++ [⟨key, value, color⟩]
    node_colors := st.node_colors ++ [color] }

/-- `idx[key]` lookup; every key linked by the builder has been pushed
first, so the default is never reached. -/
def idxOf (st : BuildSt) (key : String) : Nat :=
  (((st.idx.find? (fun p => p.1 == key)).map Prod.snd)).getD 0

/-- `finance.builders._add_link`: append a link **only when** the value is
truthy and strictly positive (`if value and value > 0`). -/
def add_link (st : BuildSt) (src dst : String) (value : Rat) (color : String) : BuildSt :=
  if 0 < value then
    { st with
      links := st.links ++ [⟨idxOf st src, idxOf st dst, value⟩]
      link_colors := st.link_colors ++ [color] }
  else st

/-- The output dict of the builder: `nodes`, `links`, `link_colors`,
`node_colors`. -/
structure SGraph where
  nodes : List SNode
  links : List SLink
  link_colors : List String
  node_colors : List String
  deriving Repr, DecidableEq

/-- Core of `build_income_budget_canton_intercos_commune` after the four
aggregation calls: the fixed push/link sequence.  The Python `for` loops
over the six-element `left` list are unrolled (colors are carried along
but play no semantic role).  Node pushes all precede the links of their
section; the residual section appends the `result` hub, the three
placeholder leaves (`amort`/`funds` are the zero-valued stand-ins of the
source) and their links only when `abs(remainder) > MIN_VAL`. -/
def build_income_core (rev : BucketSums) (canton : CantonBreakdown)
    (inter : IntercosBreakdown) (commune : CommuneBreakdown) : SGraph :=
  let lv1 := max 0 rev.impots
  let lv2 := max 0 rev.randoms
  let lv3 := max 0 rev.levies
  let lv4 := max 0 rev.rentals
  let lv5 := max 0 rev.interests
  let lv6 := max 0 rev.others
  let total_left := lv1 + lv2 + lv3 + lv4 + lv5 + lv6
  let total_canton := max 0 canton.total
  let total_inter := max 0 inter.total
  let total_commune := max 0 commune.total
  let st := BuildSt.empty
  let st := push_node st KEY_IMPOTS lv1 "#2066CF"
  let st := push_node st KEY_RANDOMS lv2 "#5B8DEF"
  let st := push_node st KEY_LEVIES lv3 "#F59E0B"
  let st := push_node st KEY_RENTALS lv4 "#2BB673"
  let st := push_node st KEY_INTERESTS_REV lv5 "#6B7280"
  let st := push_node st KEY_OTHERS_REV lv6 "#6B7280"
  let st := push_node st NODE_HOUSEHOLD total_left "#111827"
  let st := push_node st NODE_CANTON total_canton "#15803D"
  let st := push_node st NODE_INTERCOS total_inter "#6D28D9"
  let st := push_node st NODE_COMMUNE total_commune "#D97706"
  let st := push_node st KEY_SOCIAL canton.social "#86EFAC"
  let st := push_node st KEY_EQUALIZATION canton.equalization "#4ADE80"
  let st := push_node st KEY_POLICE canton.police "#22C55E"
  let st := push_node st KEY_AISGE inter.aisge "#A78BFA"
  let st := push_node st KEY_APEC inter.apec "#C4B5FD"
  let st := push_node st KEY_TRANSPORTS inter.transports "#DDD6FE"
  let st := push_node st KEY_INTERCOS_OTHER inter.other "#EDE9FE"
  let st := push_node st KEY_WAGES commune.wages "#FDE68A"
  let st := push_node st KEY_GOODS commune.goods "#FCD34D"
  let st := push_node st KEY_INTERESTS commune.interests "#FBBF24"
  let st := push_node st KEY_AIDS commune.aids "#F59E0B"
  let st := add_link st KEY_IMPOTS NODE_HOUSEHOLD lv1 "#2066CF"
  let st := add_link st KEY_RANDOMS NODE_HOUSEHOLD lv2 "#5B8DEF"
  let st := add_link st KEY_LEVIES NODE_HOUSEHOLD lv3 "#F59E0B"
  let st := add_link st KEY_RENTALS NODE_HOUSEHOLD lv4 "#2BB673"
  let st := add_link st KEY_INTERESTS_REV NODE_HOUSEHOLD lv5 "#6B7280"
  let st := add_link st KEY_OTHERS_REV NODE_HOUSEHOLD lv6 "#6B7280"
  let st := add_link st NODE_HOUSEHOLD NODE_CANTON total_canton "#9CA3AF"
  let st := add_link st NODE_HOUSEHOLD NODE_INTERCOS total_inter "#9CA3AF"
  let st := add_link st NODE_HOUSEHOLD NODE_COMMUNE total_commune "#9CA3AF"
  let st := add_link st NODE_CANTON KEY_SOCIAL canton.social "#4ADE80"
  let st := add_link st NODE_CANTON KEY_EQUALIZATION canton.equalization "#4ADE80"
  let st := add_link st NODE_CANTON KEY_POLICE canton.police "#4ADE80"
  let st := add_link st NODE_INTERCOS KEY_AISGE inter.aisge "#C4B5FD"
  let st := add_link st NODE_INTERCOS KEY_APEC inter.apec "#C4B5FD"
  let st := add_link st NODE_INTERCOS KEY_TRANSPORTS inter.transports "#C4B5FD"
  let st := add_link st NODE_INTERCOS KEY_INTERCOS_OTHER inter.other "#C4B5FD"
  let st := add_link st NODE_COMMUNE KEY_WAGES commune.wages "#FCD34D"
  let st := add_link st NODE_COMMUNE KEY_GOODS commune.goods "#FCD34D"
  let st := add_link st NODE_COMMUNE KEY_INTERESTS commune.interests "#FCD34D"
  let st := add_link st NODE_COMMUNE KEY_AIDS commune.aids "#FCD34D"
  let total_out := total_canton + total_inter + total_commune
  let remainder := total_left - total_out
  let st :=
    if MIN_VAL < |remainder| then
      let amort_val : Rat := 0
      let funds_val : Rat := 0
      let profit_val := remainder - amort_val - funds_val
      let st := push_node st NODE_RESULT remainder "#374151"
      let st := push_node st KEY_AMORT amort_val "#374151"
      let st := push_node st KEY_FUNDS funds_val "#374151"
      let st := push_node st KEY_PROFIT profit_val "#374151"
      let st := add_link st NODE_HOUSEHOLD NODE_RESULT remainder "#9CA3AF"
      let st := add_link st NODE_RESULT KEY_AMORT amort_val "#374151"
      let st := add_link st NODE_RESULT KEY_FUNDS funds_val "#374151"
      let st := add_link st NODE_RESULT KEY_PROFIT profit_val "#374151"
      st
    else st
  ⟨st.nodes, st.links, st.link_colors, st.node_colors⟩

/-- `finance.builders.build_income_budget_canton_intercos_commune`:
aggregate, then run the push/link sequence.  `none` would be a `ValueError`
escaping from the static code tables (never happens — they all parse). -/
def build_income_budget_canton_intercos_commune (qs : List Account) : Option SGraph := do
  let rev := compute_bucket_sums qs
  let canton ← compute_canton_breakdown qs
  let inter ← compute_intercos qs
  let commune ← compute_commune_breakdown qs
  pure (build_income_core rev canton inter commune)

/-- Revenue inflow into the household hub as the builder computes it:
`sum(left_vals)` of the zero-clamped revenue buckets. -/
def total_left_of (qs : List Account) : Rat :=
  let rev := compute_bucket_sums qs
  max 0 rev.impots + max 0 rev.randoms + max 0 rev.levies
    + max 0 rev.rentals + max 0 rev.interests + max 0 rev.others

/-- The builder's residual: `total_left - (total_canton + total_inter +
total_commune)` with the same zero-clamps the source applies. -/
def remainder_of (qs : List Account) : Option Rat := do
  let canton ← compute_canton_breakdown qs
  let inter ← compute_intercos qs
  let commune ← compute_commune_breakdown qs
  pure (total_left_of qs - (max 0 canton.total + max 0 inter.total + max 0 commune.total))

/-- Sum of the values of the edges leaving node `i`. -/
def sumOut (g : SGraph) (i : Nat) : Rat :=
  ((g.links.filter (fun l => l.source == i)).map (·.value)).sum

/-- Sum of the values of the edges entering node `i`. -/
def sumIn (g : SGraph) (i : Nat) : Rat :=
  ((g.links.filter (fun l => l.target == i)).map (·.value)).sum

/-- Index of the household hub: it is always the seventh node pushed. -/
def householdIdx : Nat := 6

-- ----- `finance/utils.py`: build_sankey_data --------------------------------

/-- `GroupBy = Literal["group", "function_nature"]`. -/
inductive GroupBy where
  | group
  | function_nature
  deriving Repr, DecidableEq

/-- `ValueMode = Literal["net", "charges", "revenues"]`. -/
inductive ValueMode where
  | net
  | charges
  | revenues
  deriving Repr, DecidableEq

/-- Aggregation key of `build_sankey_data`: `"group:{group_id}"` (the id may
be SQL `NULL`) or `"fn:{function}.{nature}"`.  The string prefixes make the
two families injective, so the pair data itself is kept. -/
inductive SankeyKey where
  | grp (g : Option Int)
  | fn (f n : Int)
  deriving Repr, DecidableEq

/-- Zero-pad a digit string to width `w` (Python `%0wd`, applied after the
sign). -/
def zpad (w : Nat) (s : String) : String :=
  if s.length < w then String.mk (List.replicate (w - s.length) '0') ++ s else s

/-- Python `f"{i:03d}"`. -/
def fmt_int3 (i : Int) : String :=
  if i < 0 then "-" ++ zpad 2 i.natAbs.repr else zpad 3 i.natAbs.repr

/-- `finance.utils._fmt_fn`: `'FFF.NNN'` zero-padded. -/
def fmt_fn (f n : Int) : String := fmt_int3 f ++ "." ++ fmt_int3 n

/-- A Plotly node label; Python labels may be `None` (a `NULL`
`group__label`), and `None` is a distinct dict key from every string. -/
abbrev NodeLabel := Option String

/-- The key of an account row under the chosen grouping. -/
def groupKey (gb : GroupBy) (a : Account) : SankeyKey :=
  match gb with
  | .group => .grp (a.group.map (·.id))
  | .function_nature => .fn a.function a.nature

/-- Distinct aggregation keys in first-appearance order.  (The source's SQL
`order_by` — by `group__label`, or by `(function, nature)` — only changes
the order in which nodes are numbered; no claim depends on node order, so
the deterministic first-appearance order stands in for it.) -/
def distinctKeys (qs : List Account) (gb : GroupBy) : List SankeyKey :=
  qs.foldl (fun acc a =>
    let k := groupKey gb a
    if acc.contains k then acc else acc ++ [k]) []

/-- One aggregated row: key, display label, `Sum("charges")`,
`Sum("revenues")`. -/
def sankeyAgg (qs : List Account) (gb : GroupBy) :
    List (SankeyKey × NodeLabel × Rat × Rat) :=
  (distinctKeys qs gb).map (fun k =>
    let rows := qs.filter (fun a => groupKey gb a == k)
    let label : NodeLabel :=
      match gb, k with
      | .group, _ => (rows.head?.bind (·.group)).map (·.label)
      | .function_nature, .fn f n => some (fmt_fn f n)
      | .function_nature, .grp _ => none
    (k, label, (rows.map (·.charges)).sum, (rows.map (·.revenues)).sum))

/-- `add_node`: return the index of the node with this label, appending it
only when the label is new (labels deduplicate nodes). -/
def add_node (nodes : List NodeLabel) (label : NodeLabel) : List NodeLabel × Nat :=
  if nodes.contains label then (nodes, ((nodes.indexOf? label)).getD 0)
  else (nodes ++ [label], nodes.length)

/-- Output of `build_sankey_data`: `{"nodes": [...], "links": [...]}`. -/
structure SankeyData where
  nodes : List NodeLabel
  links : List SLink
  deriving Repr, DecidableEq

/-- The links contributed by one aggregated row (the body of the
`for key, (total_charges, total_revenues) in totals_lookup.items()` loop).
The `total_charges or Decimal("0")` coalescing is a no-op here because the
aggregated sums are never SQL `NULL` in the list model. -/
def sankeyLinksFor (vm : ValueMode) (min_amount : Rat) (iRev iChg node_idx : Nat)
    (total_charges total_revenues : Rat) : List SLink :=
  match vm with
  | .net =>
    let net := total_revenues - total_charges
    let amount := |net|
    if amount < min_amount ∨ amount = 0 then []
    else if 0 ≤ net then [⟨iRev, node_idx, amount⟩]
    else [⟨node_idx, iChg, amount⟩]
  | .revenues =>
    if min_amount ≤ total_revenues ∧ 0 < total_revenues
    then [⟨iRev, node_idx, total_revenues⟩] else []
  | .charges =>
    if min_amount ≤ total_charges ∧ 0 < total_charges
    then [⟨node_idx, iChg, total_charges⟩] else []

/-- `finance.utils.build_sankey_data`: a virtual `Revenues` source and
`Charges` sink, one (label-deduplicated) node per aggregation key, then
links according to the value mode.  The translated `_("Revenues")` /
`_("Charges")` labels are modelled by their source-language strings. -/
def build_sankey_data (qs : List Account) (gb : GroupBy) (vm : ValueMode)
    (min_amount : Rat) : SankeyData :=
  let agg := sankeyAgg qs gb
  let st0 := add_node [] (some "Revenues")
  let iRev := st0.2
  let st1 := add_node st0.1 (some "Charges")
  let iChg := st1.2
  let built := agg.foldl (fun (acc : List NodeLabel × List (SankeyKey × Nat)) row =>
    let r := add_node acc.1 row.2.1
    (r.1, acc.2 ++ [(row.1, r.2)])) (st1.1, [])
  let nodes := built.1
  let key_to_idx := built.2
  let links := agg.foldl (fun ls row =>
    let node_idx := (((key_to_idx.find? (fun p => p.1 == row.1)).map Prod.snd)).getD 0
    ls ++ sankeyLinksFor vm min_amount iRev iChg node_idx row.2.2.1 row.2.2.2) []
  ⟨nodes, links⟩

-- ----- `accounting/views/mixins.py`: reconciliation -------------------------

/-- An account object as it flows through the explorer mixins: the base row
plus the dynamically injected attributes.  An outer `none` models a missing
attribute (`hasattr(a, ...)` false).  For `charges_pct`/`revenues_pct` the
outer `Option` is attribute presence and the inner `Option` is the `None`
that `_calc_pct` returns for a zero denominator.  The injected `budget_id`
and `budget_comment_count` attributes are presentation-only and omitted. -/
structure XAccount where
  acc : Account
  budget_charges : Option Rat := none
  budget_revenues : Option Rat := none
  prev_budget_charges : Option Rat := none
  prev_budget_revenues : Option Rat := none
  actual_charges : Option Rat := none
  actual_revenues : Option Rat := none
  charges_pct : Option (Option Rat) := none
  revenues_pct : Option (Option Rat) := none
  deriving Repr, DecidableEq

/-- Round to the nearest integer, ties to even (`ROUND_HALF_EVEN`, the
default `Decimal` context rounding used by a bare `quantize`). -/
def roundHalfEven (x : Rat) : Int :=
  let f := ⌊x⌋
  let r := x - f
  if r < 1/2 then f
  else if 1/2 < r then f + 1
  else if f % 2 = 0 then f else f + 1

/-- `.quantize(Decimal("0.1"))`: round to one decimal place, half-even. -/
def quantize_tenth (x : Rat) : Rat := (roundHalfEven (x * 10) : Rat) / 10

/-- `BaseExplorerLogicMixin._calc_pct`: `None` when the denominator is
zero, otherwise `((current - previous) / previous * 100)` quantized to one
decimal place.  (The 28-significant-digit `Decimal` context makes the
division exact for all monetary magnitudes; it is modelled as exact
rational division.) -/
def calc_pct (current previous : Rat) : Option Rat :=
  if previous = 0 then none
  else some (quantize_tenth ((current - previous) / previous * 100))

/-- The composite natural key `(function, nature, sub_account)`. -/
def akey (a : Account) : Int × Int × Option Int := (a.function, a.nature, a.sub_account)

/-- `AccountExplorerMixin._get_actual_accounts`: actual rows of the year
with a group, visible in reports, optionally restricted to the
responsibility groups.  `user`/`only_responsible` are modelled by the
`group_ids` list they produce (`_get_group_ids`). -/
def get_actual_accounts (db : List Account) (year : Int) (group_ids : List Int) :
    List Account :=
  let qs := db.filter (fun a =>
    a.year == year && !a.is_budget && a.group.isSome && a.visible_in_report)
  if group_ids.isEmpty then qs
  else qs.filter (fun a =>
    match a.group with
    | some g => group_ids.contains g.id
    | none => false)

/-- `AccountExplorerMixin._get_budget_fallback`: budget rows of the year
(no visibility filter here), with their own figures moved into the
`budget_*` attributes and the primary figures zeroed. -/
def get_budget_fallback (db : List Account) (year : Int) (group_ids : List Int) :
    List XAccount :=
  let qs := db.filter (fun a => a.year == year && a.is_budget && a.group.isSome)
  let qs := if group_ids.isEmpty then qs
    else qs.filter (fun a =>
      match a.group with
      | some g => group_ids.contains g.id
      | none => false)
  qs.map (fun b =>
    { acc := { b with charges := 0, revenues := 0 }
      budget_charges := some b.charges
      budget_revenues := some b.revenues })

/-- `a` is the object the dict comprehension
`{(a.function, a.nature, a.sub_account): a for a in actual_accounts}`
retains for its key: the *last* list element with that key.  (With
duplicate equal rows — excluded by the uniqueness invariant — Python
object identity would distinguish them; value equality stands in for
identity.) -/
def dictWinner (actuals : List Account) (a : Account) : Bool :=
  match actuals.reverse.find? (fun x => akey x == akey a) with
  | some w => w == a
  | none => false

/-- `AccountExplorerMixin._attach_budget_data`: select the year's budget
rows whose function and nature appear among the actual keys, then, for
each budget row in turn, copy its figures onto the actual account stored
in the key dict under the same composite key (a later budget row with the
same key overwrites an earlier one, hence `getLast?`). -/
def attach_budget_data (db : List Account) (year : Int) (actuals : List Account) :
    List XAccount :=
  let keys := actuals.map akey
  let budget_qs := db.filter (fun b => b.year == year && b.is_budget
    && (keys.map (fun k => k.1)).contains b.function
    && (keys.map (fun k => k.2.1)).contains b.nature)
  actuals.map (fun a =>
    match (budget_qs.filter (fun b => akey b == akey a)).getLast? with
    | some b =>
      if dictWinner actuals a then
        { acc := a
          budget_charges := some b.charges
          budget_revenues := some b.revenues }
      else { acc := a }
    | none => { acc := a })

/-- `AccountExplorerMixin._ensure_budget_defaults`: fill
`Decimal("0.00")` for the budget attributes that are still missing. -/
def ensure_budget_defaults (xs : List XAccount) : List XAccount :=
  xs.map (fun x =>
    { x with
      budget_charges := some (x.budget_charges.getD 0)
      budget_revenues := some (x.budget_revenues.getD 0) })

/-- `AccountExplorerMixin.get_accounts`: actual rows enriched with their
budget counterparts, falling back to the zeroed budget rows when the year
has no actuals. -/
def account_get_accounts (db : List Account) (year : Int) (group_ids : List Int) :
    List XAccount :=
  let actuals := get_actual_accounts db year group_ids
  if actuals.isEmpty then get_budget_fallback db year group_ids
  else ensure_budget_defaults (attach_budget_data db year actuals)

/-- `BaseExplorerLogicMixin._get_accounts_queryset`. -/
def get_accounts_queryset (db : List Account) (year : Int) (is_budget : Bool)
    (group_ids : List Int) : List Account :=
  let qs := db.filter (fun a =>
    a.year == year && a.is_budget == is_budget && a.group.isSome && a.visible_in_report)
  if group_ids.isEmpty then qs
  else qs.filter (fun a =>
    match a.group with
    | some g => group_ids.contains g.id
    | none => false)

/-- `BudgetExplorerMixin.get_accounts`: current-year budget rows enriched
with the prior-year budget row and the two-years-back actual row under the
same key (dict lookups, last list element wins), zero defaults for missing
counterparts, and the percentage deltas of `_calc_pct`. -/
def budget_get_accounts (db : List Account) (year : Int) (group_ids : List Int) :
    List XAccount :=
  let current_budget := get_accounts_queryset db year true group_ids
  let prev_budget := get_accounts_queryset db (year - 1) true []
  let actuals := get_accounts_queryset db (year - 2) false []
  current_budget.map (fun acc =>
    let prev := prev_budget.reverse.find? (fun x => akey x == akey acc)
    let act := actuals.reverse.find? (fun x => akey x == akey acc)
    let pbc := (prev.map (·.charges)).getD 0
    let pbr := (prev.map (·.revenues)).getD 0
    let ac := (act.map (·.charges)).getD 0
    let ar := (act.map (·.revenues)).getD 0
    { acc := acc
      prev_budget_charges := some pbc
      prev_budget_revenues := some pbr
      actual_charges := some ac
      actual_revenues := some ar
      charges_pct := some (calc_pct acc.charges pbc)
      revenues_pct := some (calc_pct acc.revenues pbr)
      budget_charges := some acc.charges
      budget_revenues := some acc.revenues })

-- ----- `accounting/views/mixins.py`: grouped structure ----------------------

/-- The account-group dict: `label`, `accounts`, totals.  `T` is the record
of running totals (four fields for `AccountExplorerMixin`, six for
`BudgetExplorerMixin`, modelled as finitely-indexed functions to `Rat`).
The `responsible` entry is presentation-only and omitted. -/
structure AGNode (T : Type) where
  label : String
  accounts : List XAccount
  tot : T

/-- The super-group dict: `label`, `groups` (keyed by the *string*
`AccountGroup.code`), totals. -/
structure SGNode (T : Type) where
  label : String
  groups : List (String × AGNode T)
  tot : T

/-- The meta-group dict: `label`, `supergroups` (keyed by the integer
`SuperGroup.code`), and meta-level totals `Tm` (`PUnit` for
`AccountExplorerMixin`, whose meta dict carries no totals). -/
structure MGNode (Tm T : Type) where
  label : String
  supergroups : List (Int × SGNode T)
  tot : Tm

/-- `dict.setdefault(k, d)` followed by an in-place update of the entry:
on an association list whose keys are unique (as a Python dict's are), the
first matching entry is updated, otherwise `(k, f d)` is appended. -/
def updAssoc {κ δ : Type} [BEq κ] (l : List (κ × δ)) (k : κ) (d : δ) (f : δ → δ) :
    List (κ × δ) :=
  match l with
  | [] => [(k, f d)]
  | p :: rest => if p.1 == k then (p.1, f p.2) :: rest else p :: updAssoc rest k d f

/-- One iteration of the `for account in accounts` loop of
`build_grouped_structure` (both mixins share this shape): skip the account
when its group → supergroup → metagroup chain is incomplete, otherwise
append it to its account-group and add its figures to the running totals
at each level (`addM` at the meta level, `addT` at the super-group and
account-group levels). -/
def build_grouped_step {Tm T : Type} (addM : Tm → XAccount → Tm) (zM : Tm)
    (addT : T → XAccount → T) (zT : T)
    (st : List (Int × MGNode Tm T)) (x : XAccount) : List (Int × MGNode Tm T) :=
  match x.acc.group with
  | none => st
  | some g =>
    match g.supergroup with
    | none => st
    | some sg =>
      match sg.metagroup with
      | none => st
      | some mg =>
        updAssoc st mg.code ⟨mg.label, [], zM⟩ (fun m =>
          { m with
            tot := addM m.tot x
            supergroups := updAssoc m.supergroups sg.code ⟨sg.label, [], zT⟩ (fun s =>
              { s with
                tot := addT s.tot x
                groups := updAssoc s.groups g.code ⟨g.label, [], zT⟩ (fun agn =>
                  { agn with
                    accounts := agn.accounts ++ [x]
                    tot := addT agn.tot x }) }) })

/-- The raw (unsorted) nested structure built by the account loop. -/
def build_grouped_raw {Tm T : Type} (addM : Tm → XAccount → Tm) (zM : Tm)
    (addT : T → XAccount → T) (zT : T) (accounts : List XAccount) :
    List (Int × MGNode Tm T) :=
  accounts.foldl (build_grouped_step addM zM addT zT) []

-- ----- Python `sorted` with possibly unorderable keys -----------------------

/-- Insert `x` after every already-placed element not greater than it;
`lt a b` is Python `a < b` on sort keys, `none` being a `TypeError`. -/
def pyInsert {α : Type} (lt : α → α → Option Bool) (x : α) :
    List α → Option (List α)
  | [] => some [x]
  | y :: ys => do
    let b ← lt x y
    if b then pure (x :: y :: ys)
    else do
      let r ← pyInsert lt x ys
      pure (y :: r)

/-- Stable sort by a possibly partial strict order, `none` when an
unorderable pair of keys is compared (Python `sorted` raising
`TypeError`).  (This insertion sort performs the same stable reordering as
CPython's sort whenever every comparison is defined; when some pair is
unorderable, CPython's exact comparison schedule decides whether the
`TypeError` fires — on a two-element list both schedules coincide.) -/
def pySort {α : Type} (lt : α → α → Option Bool) (l : List α) : Option (List α) :=
  l.foldlM (fun acc x => pyInsert lt x acc) []

/-- Third component of the account sort key,
`a.sub_account or ""`: the *empty string* when the sub-account is `None`
**or zero** (`0` is falsy), the integer itself otherwise — a value that is
sometimes a `str` and sometimes an `int`. -/
def pySubKey (x : XAccount) : Sum String Int :=
  match x.acc.sub_account with
  | none => .inl ""
  | some s => if s = 0 then .inl "" else .inr s

/-- Python `<` on the heterogeneous third key component: defined within
each type, a `TypeError` (`none`) across types. -/
def pyLtSub : Sum String Int → Sum String Int → Option Bool
  | .inl s, .inl t => some (decide (s < t))
  | .inr i, .inr j => some (decide (i < j))
  | .inl _, .inr _ => none
  | .inr _, .inl _ => none

/-- Python `<` on the tuple key `(a.function, a.nature, a.sub_account or
"")`: lexicographic; the heterogeneous third components are only ever
compared when the first two tie. -/
def pyKeyLt (x y : XAccount) : Option Bool :=
  if x.acc.function < y.acc.function then some true
  else if y.acc.function < x.acc.function then some false
  else if x.acc.nature < y.acc.nature then some true
  else if y.acc.nature < x.acc.nature then some false
  else pyLtSub (pySubKey x) (pySubKey y)

/-- `sort_grouped_structure` (shared by both mixins): sort the meta-group
and super-group keys (integers) and the account-group keys (strings)
ascending, and sort each group's accounts by the
`(function, nature, sub_account or "")` key — the latter is the
comparison that can raise `TypeError`.  Sorting the association pairs by
key is the same as iterating `sorted(d.keys())` over a dict, whose keys
are unique. -/
def sort_grouped_structure {Tm T : Type} (st : List (Int × MGNode Tm T)) :
    Option (List (Int × MGNode Tm T)) := do
  let mgs ← pySort (fun p q => some (decide (p.1 < q.1))) st
  mgs.mapM (fun p => do
    let sgs ← pySort (fun p q => some (decide (p.1 < q.1))) p.2.supergroups
    let sgs2 ← sgs.mapM (fun q => do
      let ags ← pySort (fun r s => some (decide (r.1 < s.1))) q.2.groups
      let ags2 ← ags.mapM (fun r => do
        let accs ← pySort pyKeyLt r.2.accounts
        pure (r.1, { r.2 with accounts := accs }))
      pure (q.1, { q.2 with groups := ags2 }))
    pure (p.1, { p.2 with supergroups := sgs2 }))

/-- Relation between an account-group entry and its sorted image: same
key, label and totals, the accounts reordered into Python-sorted order. -/
def AGRel {T : Type} (r r2 : String × AGNode T) : Prop :=
  r2.1 = r.1 ∧ r2.2.label = r.2.label ∧ r2.2.tot = r.2.tot
    ∧ r2.2.accounts.Perm r.2.accounts
    ∧ r2.2.accounts.Chain' (fun x y => pyKeyLt y x ≠ some true)

/-- Relation between a super-group entry and its sorted image. -/
def SGRel {T : Type} (q q2 : Int × SGNode T) : Prop :=
  q2.1 = q.1 ∧ q2.2.label = q.2.label ∧ q2.2.tot = q.2.tot
    ∧ (∃ mid, mid.Perm q.2.groups ∧ List.Forall₂ AGRel mid q2.2.groups)
    ∧ q2.2.groups.Chain' (fun r s => ¬ s.1 < r.1)

/-- Relation between a meta-group entry and its sorted image. -/
def MGRel {Tm T : Type} (p p2 : Int × MGNode Tm T) : Prop :=
  p2.1 = p.1 ∧ p2.2.label = p.2.label ∧ p2.2.tot = p.2.tot
    ∧ (∃ mid, mid.Perm p.2.supergroups ∧ List.Forall₂ SGRel mid p2.2.supergroups)
    ∧ p2.2.supergroups.Chain' (fun q r => ¬ r.1 < q.1)

/-- Every pair of leaf accounts inside a common account-group has
comparable sort keys (no `int`/`str` mix on tied `(function, nature)`):
the condition under which Python's `sorted` cannot raise. -/
def allComparable {Tm T : Type} (st : List (Int × MGNode Tm T)) : Prop :=
  ∀ p ∈ st, ∀ q ∈ p.2.supergroups, ∀ r ∈ q.2.groups,
    ∀ x ∈ r.2.accounts, ∀ y ∈ r.2.accounts, (pyKeyLt x y).isSome

-- ----- Mixin instantiations -------------------------------------------------

/-- The four totals of `AccountExplorerMixin` group/super-group dicts. -/
inductive AField where
  | charges
  | revenues
  | budget_charges
  | budget_revenues
  deriving Repr, DecidableEq

/-- Monetary field read by the account-explorer totals.  The builder runs
on `get_accounts` output, where `_ensure_budget_defaults` guarantees the
budget attributes; reading a missing attribute (Python `AttributeError`)
is modelled as 0 and never exercised by those callers. -/
def aProj : AField → XAccount → Rat
  | .charges, x => x.acc.charges
  | .revenues, x => x.acc.revenues
  | .budget_charges, x => x.budget_charges.getD 0
  | .budget_revenues, x => x.budget_revenues.getD 0

/-- The six totals of `BudgetExplorerMixin` dicts (all three levels). -/
inductive BField where
  | budget_charges
  | budget_revenues
  | prev_budget_charges
  | prev_budget_revenues
  | actual_charges
  | actual_revenues
  deriving Repr, DecidableEq

/-- Monetary field read by the budget-explorer totals. -/
def bProj : BField → XAccount → Rat
  | .budget_charges, x => x.budget_charges.getD 0
  | .budget_revenues, x => x.budget_revenues.getD 0
  | .prev_budget_charges, x => x.prev_budget_charges.getD 0
  | .prev_budget_revenues, x => x.prev_budget_revenues.getD 0
  | .actual_charges, x => x.actual_charges.getD 0
  | .actual_revenues, x => x.actual_revenues.getD 0

/-- `AccountExplorerMixin.build_grouped_structure`: build the raw nested
dicts (meta dicts carry no totals: `Tm = PUnit`), then sort. -/
def account_build_grouped_structure (accounts : List XAccount) :
    Option (List (Int × MGNode PUnit (AField → Rat))) :=
  sort_grouped_structure (build_grouped_raw
    (fun t _ => t) PUnit.unit
    (fun t x f => t f + aProj f x) (fun _ => 0) accounts)

/-- `BudgetExplorerMixin.build_grouped_structure`: six running totals at
all three levels, then sort. -/
def budget_build_grouped_structure (accounts : List XAccount) :
    Option (List (Int × MGNode (BField → Rat) (BField → Rat))) :=
  sort_grouped_structure (build_grouped_raw
    (fun t x f => t f + bProj f x) (fun _ => 0)
    (fun t x f => t f + bProj f x) (fun _ => 0) accounts)

-- ----- Auxiliary definitions for the verification ---------------------------

/-- The list of links `_add_link` appends for one call: a singleton when the
value is strictly positive, nothing otherwise. -/
def linkIf (s t : Nat) (v : Rat) : List SLink :=
  if 0 < v then [⟨s, t, v⟩] else []

/-- `(function, nature)` membership test corresponding to what
`q_from_codes` actually filters on (the sub-account parts being dropped by
the misnamed field probe, see `q_from_code`). -/
def fn_match (pairs : List (Int × Int)) (a : Account) : Bool :=
  pairs.any (fun p => a.function == p.1 && a.nature == p.2)

/-- The `(function, nature)` pairs of the `AISGE` code list, duplicates
included. -/
def AISGE_FN : List (Int × Int) :=
  [(500, 352), (510, 352), (510, 366), (520, 352), (520, 366), (520, 352),
   (530, 351), (530, 451), (550, 352), (560, 352), (570, 352)]

/-- The `(function, nature)` pairs of the `APEC` code list. -/
def APEC_FN : List (Int × Int) := [(460, 352), (460, 352)]

/-- The `(function, nature)` pair of `TRANSPORTS_REGION`. -/
def TRANSPORTS_FN : List (Int × Int) := [(180, 351)]

/-- The `(function, nature)` pairs of the three canton codes. -/
def CANTON_FN : List (Int × Int) := [(720, 351), (220, 352), (600, 351)]

/-- `(function, nature)` pair of `SOCIAL_SECURITY` (`"720.351"`). -/
def SOCIAL_FN : List (Int × Int) := [(720, 351)]

/-- `(function, nature)` pair of `PEREQUATION` (`"220.352"`). -/
def PEREQ_FN : List (Int × Int) := [(220, 352)]

/-- `(function, nature)` pair of `POLICE` (`"600.351"`). -/
def POLICE_FN : List (Int × Int) := [(600, 351)]

/-- `(function, nature)` pairs of the AISGE codes with nature 366
(`codes_with_nature AISGE 366`). -/
def AIDS_EXCL_FN : List (Int × Int) := [(510, 366), (520, 366)]

/-- Evaluated result of `compute_canton_breakdown` (the static codes all
parse; each Q predicate is a `(function, nature)` test). -/
def cantonD (qs : List Account) : CantonBreakdown :=
  { social := max 0 (sum_field qs (fn_match SOCIAL_FN) (·.charges))
    equalization := max 0 (sum_field qs (fn_match PEREQ_FN) (·.charges))
    police := max 0 (sum_field qs (fn_match POLICE_FN) (·.charges))
    total := max 0 (sum_field qs (fn_match SOCIAL_FN) (·.charges)
      + sum_field qs (fn_match PEREQ_FN) (·.charges)
      + sum_field qs (fn_match POLICE_FN) (·.charges)) }

/-- Evaluated result of `compute_intercos`. -/
def intercosD (qs : List Account) : IntercosBreakdown :=
  { aisge := max 0 (sum_field qs (fn_match AISGE_FN) (·.charges))
    apec := max 0 (sum_field qs (fn_match APEC_FN) (·.charges))
    transports := max 0 (sum_field qs (fn_match TRANSPORTS_FN) (·.charges))
    other := max 0 (sum_field qs (fun a => natureInRange a 350 359
      && !(fn_match AISGE_FN a || fn_match APEC_FN a || fn_match TRANSPORTS_FN a
        || fn_match CANTON_FN a)) (·.charges))
    total := max 0 (sum_field qs (fn_match AISGE_FN) (·.charges)
      + sum_field qs (fn_match APEC_FN) (·.charges)
      + sum_field qs (fn_match TRANSPORTS_FN) (·.charges)
      + sum_field qs (fun a => natureInRange a 350 359
        && !(fn_match AISGE_FN a || fn_match APEC_FN a || fn_match TRANSPORTS_FN a
          || fn_match CANTON_FN a)) (·.charges)) }

/-- Evaluated result of `compute_commune_breakdown`. -/
def communeD (qs : List Account) : CommuneBreakdown :=
  { wages := max 0 (((qs.filter (fun a => natureInRange a 301 309)).map (·.charges)).sum)
    goods := max 0 (((qs.filter (fun a => natureInRange a 310 319)).map (·.charges)).sum)
    interests := max 0 (((qs.filter (fun a => natureInRange a 320 329)).map (·.charges)).sum)
    aids := max 0 (sum_field qs (fun a => natureInRange a 360 369
      && !(fn_match AIDS_EXCL_FN a)) (·.charges))
    total := max 0 (((qs.filter (fun a => natureInRange a 301 309)).map (·.charges)).sum
      + ((qs.filter (fun a => natureInRange a 310 319)).map (·.charges)).sum
      + ((qs.filter (fun a => natureInRange a 320 329)).map (·.charges)).sum
      + sum_field qs (fun a => natureInRange a 360 369
        && !(fn_match AIDS_EXCL_FN a)) (·.charges)) }

/-- Explicit-code matching as the specification words it: the account's
function, nature *and* sub-account must equal the parsed parts of the code
(sub-account comparison by its integer value; a code without a sub-account
part matches any sub-account of its function/nature).  This is the
claim-side counterpart of `q_from_code` for refinement comparison. -/
def code_match_per_spec (code : String) (a : Account) : Bool :=
  match parse_fn_code code with
  | none => false
  | some (fn, nat, sub) =>
    a.function == fn && a.nature == nat &&
      (match sub with
       | some s => a.sub_account == pyInt s
       | none => true)

/-- The "other intercommunalities" bucket as the claim describes it: the
350–359 charge base minus the canton single codes **and minus the AISGE,
APEC, transport-region and associations code lists** (claim-side
definition for refinement comparison; `compute_intercos` does not exclude
the associations). -/
def intercos_other_per_claim (qs : List Account) : Option Rat := do
  let q_aisge ← q_from_codes AISGE
  let q_apec ← q_from_codes APEC
  let q_trans ← q_from_codes [TRANSPORTS_REGION]
  let q_canton ← q_from_codes [SOCIAL_SECURITY, PEREQUATION, POLICE]
  let q_assoc ← q_from_codes ASSOCIATIONS
  pure (max 0 (sum_field qs (fun a => natureInRange a 350 359
    && !(q_aisge a || q_apec a || q_trans a || q_canton a || q_assoc a)) (·.charges)))

/-- Total revenues of the accounts whose nature lies in the revenue range
400–499. -/
def revenues_total_400_499 (qs : List Account) : Rat :=
  ((qs.filter (fun a => natureInRange a 400 499)).map (·.revenues)).sum

/-- The budget counterpart of an account: the row of the collection with
the same `(function, nature, sub_account)` key and year and
`is_budget=True` (unique under the upstream uniqueness invariant). -/
def budget_counterpart (db : List Account) (year : Int) (a : Account) : Option Account :=
  (db.filter (fun b => b.is_budget && b.year == year && akey b == akey a)).head?

-- ----- Concrete sample data used by witnesses and counterexamples -----------

/-- A fully configured group chain (account-group → super-group →
meta-group). -/
def gref : AccountGroupRef :=
  ⟨1, "ADM", "Administration", some ⟨11, "General", some ⟨1, "Operations"⟩⟩⟩

/-- A commune-internal wages charge account (nature 301), no revenues. -/
def cexChargeAcc : Account := ⟨1, 2024, 100, 301, none, false, 100, 0, some gref, true⟩

/-- An account matching the `ASSOCIATIONS` code `160.352`. -/
def cexAssocAcc : Account := ⟨2, 2024, 160, 352, none, false, 100, 0, some gref, true⟩

/-- An account with the function/nature of APEC's `460.352.1` but a
*different* sub-account. -/
def cexSubAcc : Account := ⟨3, 2024, 460, 352, some 2, false, 100, 0, some gref, true⟩

/-- A general-tax revenue account (nature 400). -/
def wRevAcc : Account := ⟨4, 2024, 210, 400, none, false, 0, 1000, some gref, true⟩

/-- An actual account with a budget counterpart. -/
def wActAcc : Account := ⟨5, 2024, 170, 401, none, false, 50, 60, some gref, true⟩

/-- The budget counterpart of `wActAcc` (same key and year). -/
def wBudAcc : Account := ⟨6, 2024, 170, 401, none, true, 40, 45, some gref, true⟩

/-- An actual account of the same year without any budget counterpart. -/
def wLoneAcc : Account := ⟨7, 2024, 300, 318, none, false, 25, 0, some gref, true⟩

/-- An account without a sub-account, in the same group and with the same
`(function, nature)` as `cexMixB`. -/
def cexMixA : XAccount := { acc := ⟨8, 2024, 100, 300, none, false, 1, 2, some gref, true⟩ }

/-- An account *with* a sub-account, tying with `cexMixA` on
`(function, nature)` — the pair whose sort keys mix `int` and `str`. -/
def cexMixB : XAccount := { acc := ⟨9, 2024, 100, 300, some 1, false, 3, 4, some gref, true⟩ }

/-- A prior-year budget row matching `wBudNext` (for the budget explorer). -/
def wPrevBudAcc : Account := ⟨10, 2023, 170, 401, none, true, 20, 30, some gref, true⟩

/-- A current-year budget row for the budget-explorer path. -/
def wBudNext : Account := ⟨11, 2024, 170, 401, none, true, 44, 33, some gref, true⟩

/-- The single member of `budget_get_accounts [wBudNext, wPrevBudAcc] 2024 []`
(used to instantiate reconciliation statements concretely). -/
def wBudX : XAccount :=
  { acc := wBudNext
    budget_charges := some 44
    budget_revenues := some 33
    prev_budget_charges := some 20
    prev_budget_revenues := some 30
    actual_charges := some 0
    actual_revenues := some 0
    charges_pct := some (calc_pct 44 20)
    revenues_pct := some (calc_pct 33 30) }

/-- The reconciled form of `wActAcc` (budget figures of `wBudAcc` attached). -/
def wActX : XAccount :=
  { acc := wActAcc
    budget_charges := some 40
    budget_revenues := some 45 }

/-- The raw account-explorer grouped structure over the single reconciled
account `wActX` (concrete instance for the sorting statements). -/
def wAccountRaw : List (Int × MGNode PUnit (AField → Rat)) :=
  build_grouped_raw (fun t _ => t) PUnit.unit
    (fun t x f => t f + aProj f x) (fun _ => 0) [wActX]

/-- Additivity at the account-group level: each carried total equals the
sum of that monetary field over the group's leaf accounts. -/
def agInv {F : Type} (proj : F → XAccount → Rat) (r : AGNode (F → Rat)) : Prop :=
  ∀ f, r.tot f = ((r.accounts.map (proj f)).sum)

/-- Additivity at the super-group level: each carried total equals the sum
of the children account-groups' totals, and every child satisfies
`agInv`. -/
def sgInv {F : Type} (proj : F → XAccount → Rat) (q : SGNode (F → Rat)) : Prop :=
  (∀ f, q.tot f = ((q.groups.map (fun r => r.2.tot f)).sum))
    ∧ ∀ r ∈ q.groups, agInv proj r.2

/-- Additivity below the meta-group level: every child super-group
satisfies `sgInv` (the meta dict of the account explorer carries no totals
of its own). -/
def mgSubInv {Tm F : Type} (proj : F → XAccount → Rat)
    (p : MGNode Tm (F → Rat)) : Prop :=
  ∀ q ∈ p.supergroups, sgInv proj q.2

/-- Additivity of the meta-group totals themselves (budget explorer):
each carried total equals the sum of the children super-groups' totals. -/
def mgTotInv {F : Type} (proj : F → XAccount → Rat)
    (p : MGNode (F → Rat) (F → Rat)) : Prop :=
  ∀ f, p.tot f = ((p.supergroups.map (fun q => q.2.tot f)).sum)

-- ===========================================================================
-- Theorems
-- ===========================================================================

-- ----- C7: percentage deltas ------------------------------------------------

lemma calc_pct_eq_none_iff (c p : Rat) : calc_pct c p = none ↔ p = 0 := by
  unfold calc_pct
  split_ifs with h
  · simp [h]
  · simp [h]

/-- C7: `_calc_pct` returns `None` exactly when the previous value is zero
and otherwise the exact percentage delta quantized to one decimal place
(it is a total function — no division error can be raised); consequently
the `charges_pct`/`revenues_pct` attributes attached by the budget
explorer are `None` exactly when the corresponding prior-year value is
zero. -/
theorem calc_pct_none_iff_zero :
    (∀ current previous : Rat,
      (calc_pct current previous = none ↔ previous = 0)
      ∧ (previous ≠ 0 → calc_pct current previous
          = some (quantize_tenth ((current - previous) / previous * 100))))
    ∧ (∀ (db : List Account) (year : Int) (group_ids : List Int),
      ∀ x ∈ budget_get_accounts db year group_ids,
        (x.charges_pct = some none ↔ x.prev_budget_charges = some 0)
        ∧ (x.revenues_pct = some none ↔ x.prev_budget_revenues = some 0)) := by
  constructor
  · intro c p
    refine ⟨calc_pct_eq_none_iff c p, fun h => ?_⟩
    unfold calc_pct
    simp [h]
  · intro db year gids x hx
    unfold budget_get_accounts at hx
    simp only [List.mem_map] at hx
    obtain ⟨a, -, rfl⟩ := hx
    simp only [Option.some_inj]
    exact ⟨calc_pct_eq_none_iff _ _, calc_pct_eq_none_iff _ _⟩

set_option maxRecDepth 4000 in
/-- Witness for C7 at concrete inputs. -/
theorem calc_pct_none_iff_zero_witness :
    calc_pct 5 2 = some (quantize_tenth ((5 - 2) / 2 * 100))
    ∧ ((wBudX.charges_pct = some none ↔ wBudX.prev_budget_charges = some 0)
      ∧ (wBudX.revenues_pct = some none ↔ wBudX.prev_budget_revenues = some 0)) :=
  ⟨(calc_pct_none_iff_zero.1 5 2).2 (by norm_num),
   calc_pct_none_iff_zero.2 [wBudNext, wPrevBudAcc] 2024 [] wBudX
     (by with_unfolding_all decide)⟩

-- ----- C8: parse_fn_code ----------------------------------------------------

/-- C8 counterexample: a code with **four** dot-separated parts does not
raise — `parse_fn_code` accepts it and silently drops the fourth part,
contradicting the claim that more than three parts raise an error. -/
theorem parse_fn_code_counterexample :
    (splitDot "1.2.3.4".toList).length = 4
    ∧ parse_fn_code "1.2.3.4" = some (1, 2, some "3") := by decide

/-- C8 (amended): `parse_fn_code` raises exactly when its input has fewer
than two dot-separated parts or the function/nature part is not an
integer; every accepted input yields `(function, nature, third part or
None)` — parts beyond the third are ignored, not rejected. -/
theorem parse_fn_code_amended :
    ∀ code : String,
      (parse_fn_code code = none ↔
        (splitDot code.toList).length ≤ 1
        ∨ pyInt (String.mk ((splitDot code.toList).headD [])) = none
        ∨ pyInt (String.mk (((splitDot code.toList).drop 1).headD [])) = none)
      ∧ (∀ fn nat sub, parse_fn_code code = some (fn, nat, sub) →
          pyInt (String.mk ((splitDot code.toList).headD [])) = some fn
          ∧ pyInt (String.mk (((splitDot code.toList).drop 1).headD [])) = some nat
          ∧ sub = ((splitDot code.toList).drop 2).head?.map String.mk) := by
  intro code
  simp only [String.toList]
  rcases h : splitDot code.data with - | ⟨p0, rest0⟩
  · constructor
    · simp [parse_fn_code, h]
    · intro fn nat sub hp
      simp [parse_fn_code, h] at hp
  · rcases rest0 with - | ⟨p1, rest⟩
    · constructor
      · simp [parse_fn_code, h]
      · intro fn nat sub hp
        simp [parse_fn_code, h] at hp
    · rcases h0 : pyInt (String.mk p0) with - | f
      · constructor
        · simp [parse_fn_code, h, h0]
        · intro fn nat sub hp
          simp [parse_fn_code, h, h0] at hp
      · rcases h1 : pyInt (String.mk p1) with - | n
        · constructor
          · simp [parse_fn_code, h, h0, h1]
          · intro fn nat sub hp
            simp [parse_fn_code, h, h0, h1] at hp
        · constructor
          · simp [parse_fn_code, String.toList, h, h0, h1]
          · intro fn nat sub hp
            simp only [parse_fn_code, String.toList, h, h0, h1,
              Option.bind_some, Option.some_bind, Option.some_inj] at hp
            obtain ⟨rfl, rfl, rfl⟩ := hp
            simp [h, h0, h1]

/-- Witness for C8 at a concrete accepted input. -/
theorem parse_fn_code_amended_witness :
    pyInt (String.mk ((splitDot "460.352.1".toList).headD [])) = some 460
    ∧ pyInt (String.mk (((splitDot "460.352.1".toList).drop 1).headD [])) = some 352
    ∧ (some "1" : Option String)
        = ((splitDot "460.352.1".toList).drop 2).head?.map String.mk :=
  (parse_fn_code_amended "460.352.1").2 460 352 (some "1") (by decide)

-- ----- C2: explicit-code matching drops the sub-account ---------------------

/-- C2: the aggregator counts an account with the *wrong* sub-account
toward an explicit dotted code `F.N.S`: `q_from_code` probes the model for
a field named `subaccount`, the model field is `sub_account`, so the
sub-account equality is silently dropped and matching degenerates to
function+nature.  `cexSubAcc` has sub-account 2 yet is summed under code
`460.352.1`, while the specified matching rule excludes it. -/
theorem sum_amount_counts_wrong_sub_account :
    sum_amount_for_codes [cexSubAcc] ["460.352.1"] (·.charges) = some 100
    ∧ code_match_per_spec "460.352.1" cexSubAcc = false
    ∧ accountFieldNames.contains "subaccount" = false
    ∧ accountFieldNames.contains "sub_account" = true := by
  with_unfolding_all decide

-- ----- C3: revenue buckets partition the 400–499 range ----------------------

lemma sum_filter_eq_sum_ite (l : List Account) (p : Account → Bool) (f : Account → Rat) :
    ((l.filter p).map f).sum = (l.map (fun a => if p a then f a else 0)).sum := by
  induction l with
  | nil => simp
  | cons a t ih => by_cases hp : p a <;> simp [hp, ih]

lemma sum_map_add_distrib (l : List Account) (g h : Account → Rat) :
    (l.map (fun a => g a + h a)).sum = (l.map g).sum + (l.map h).sum := by
  induction l with
  | nil => simp
  | cons a t ih =>
    simp only [List.map_cons, List.sum_cons, ih]
    ring

lemma sum_map_congr (l : List Account) (g h : Account → Rat)
    (hp : ∀ a ∈ l, g a = h a) :
    (l.map g).sum = (l.map h).sum := by
  induction l with
  | nil => simp
  | cons a t ih =>
    simp only [List.map_cons, List.sum_cons, hp a (by simp),
      ih (fun b hb => hp b (by simp [hb]))]

lemma bucket_pointwise (a : Account) (h : natureInRange a 400 499 = true) :
    (if natureInRange a 400 409 && !(IMPOTS_NATURE_EXCLUDE.contains a.nature)
        then a.revenues else 0)
      + (if IMPOTS_NATURE_EXCLUDE.contains a.nature then a.revenues else 0)
      + (if natureInRange a 430 439 then a.revenues else 0)
      + (if RENTALS_NATURE.contains a.nature then a.revenues else 0)
      + (if INTERESTS_NATURE.contains a.nature then a.revenues else 0)
      + (if !(natureInRange a 400 409) && !(natureInRange a 430 439)
          && !((RENTALS_NATURE ++ INTERESTS_NATURE).contains a.nature)
          then a.revenues else 0)
    = a.revenues := by
  simp only [natureInRange, IMPOTS_NATURE_EXCLUDE, RENTALS_NATURE, INTERESTS_NATURE,
    List.cons_append, List.nil_append, List.contains, List.elem_eq_mem, List.mem_cons,
    List.not_mem_nil, or_false, decide_eq_true_eq, Bool.and_eq_true,
    Bool.not_eq_true', Bool.and_eq_false_iff, decide_eq_false_iff_not, not_or] at *
  split_ifs <;> first
    | ring1
    | (exfalso; omega)

lemma bucket_pointwise_count (a : Account) (h : natureInRange a 400 499 = true) :
    List.count true
      [natureInRange a 400 409 && !(IMPOTS_NATURE_EXCLUDE.contains a.nature),
       IMPOTS_NATURE_EXCLUDE.contains a.nature,
       natureInRange a 430 439,
       RENTALS_NATURE.contains a.nature,
       INTERESTS_NATURE.contains a.nature,
       !(natureInRange a 400 409) && !(natureInRange a 430 439)
         && !((RENTALS_NATURE ++ INTERESTS_NATURE).contains a.nature)] = 1 := by
  simp only [natureInRange, IMPOTS_NATURE_EXCLUDE, RENTALS_NATURE, INTERESTS_NATURE,
    List.cons_append, List.nil_append, List.contains, List.elem_eq_mem, List.mem_cons,
    List.not_mem_nil, or_false, decide_eq_true_eq, Bool.and_eq_true,
    Bool.not_eq_true', Bool.and_eq_false_iff, decide_eq_false_iff_not, not_or,
    List.count_cons, List.count_nil, beq_iff_eq] at *
  split_ifs <;> simp_all <;> omega

/-- C3: the six revenue buckets of `_compute_bucket_sums` are sums over
pairwise-disjoint account sets (each 400–499 account satisfies exactly one
bucket predicate) and together they add up exactly to the total revenues
of the accounts with nature in 400–499. -/
theorem compute_bucket_sums_partition :
    ∀ qs : List Account,
      ((compute_bucket_sums qs).impots + (compute_bucket_sums qs).randoms
        + (compute_bucket_sums qs).levies + (compute_bucket_sums qs).rentals
        + (compute_bucket_sums qs).interests + (compute_bucket_sums qs).others
        = revenues_total_400_499 qs)
      ∧ (∀ a : Account, natureInRange a 400 499 = true →
          List.count true
            [natureInRange a 400 409 && !(IMPOTS_NATURE_EXCLUDE.contains a.nature),
             IMPOTS_NATURE_EXCLUDE.contains a.nature,
             natureInRange a 430 439,
             RENTALS_NATURE.contains a.nature,
             INTERESTS_NATURE.contains a.nature,
             !(natureInRange a 400 409) && !(natureInRange a 430 439)
               && !((RENTALS_NATURE ++ INTERESTS_NATURE).contains a.nature)] = 1) := by
  intro qs
  refine ⟨?_, fun a ha => bucket_pointwise_count a ha⟩
  have key : ∀ base : List Account, (∀ a ∈ base, natureInRange a 400 499 = true) →
      ((base.filter (fun a => natureInRange a 400 409
          && !(IMPOTS_NATURE_EXCLUDE.contains a.nature))).map (·.revenues)).sum
      + ((base.filter (fun a =>
          IMPOTS_NATURE_EXCLUDE.contains a.nature)).map (·.revenues)).sum
      + ((base.filter (fun a => natureInRange a 430 439)).map (·.revenues)).sum
      + ((base.filter (fun a =>
          RENTALS_NATURE.contains a.nature)).map (·.revenues)).sum
      + ((base.filter (fun a =>
          INTERESTS_NATURE.contains a.nature)).map (·.revenues)).sum
      + ((base.filter (fun a => !(natureInRange a 400 409)
          && !(natureInRange a 430 439)
          && !((RENTALS_NATURE ++ INTERESTS_NATURE).contains a.nature))).map
          (·.revenues)).sum
      = (base.map (·.revenues)).sum := by
    intro base hb
    rw [sum_filter_eq_sum_ite, sum_filter_eq_sum_ite, sum_filter_eq_sum_ite,
      sum_filter_eq_sum_ite, sum_filter_eq_sum_ite, sum_filter_eq_sum_ite,
      ← sum_map_add_distrib, ← sum_map_add_distrib, ← sum_map_add_distrib,
      ← sum_map_add_distrib, ← sum_map_add_distrib]
    exact sum_map_congr _ _ _ (fun a ha => bucket_pointwise a (hb a ha))
  unfold compute_bucket_sums revenues_total_400_499
  simp only
  exact key _ (fun a ha => (List.mem_filter.mp ha).2)

/-- Witness for C3 at a concrete collection and account. -/
theorem compute_bucket_sums_partition_witness :
    ((compute_bucket_sums [wRevAcc]).impots + (compute_bucket_sums [wRevAcc]).randoms
      + (compute_bucket_sums [wRevAcc]).levies + (compute_bucket_sums [wRevAcc]).rentals
      + (compute_bucket_sums [wRevAcc]).interests + (compute_bucket_sums [wRevAcc]).others
      = revenues_total_400_499 [wRevAcc])
    ∧ List.count true
        [natureInRange wRevAcc 400 409 && !(IMPOTS_NATURE_EXCLUDE.contains wRevAcc.nature),
         IMPOTS_NATURE_EXCLUDE.contains wRevAcc.nature,
         natureInRange wRevAcc 430 439,
         RENTALS_NATURE.contains wRevAcc.nature,
         INTERESTS_NATURE.contains wRevAcc.nature,
         !(natureInRange wRevAcc 400 409) && !(natureInRange wRevAcc 430 439)
           && !((RENTALS_NATURE ++ INTERESTS_NATURE).contains wRevAcc.nature)] = 1 :=
  ⟨(compute_bucket_sums_partition [wRevAcc]).1,
   (compute_bucket_sums_partition [wRevAcc]).2 wRevAcc (by decide)⟩

-- ----- C4: intercommunal buckets --------------------------------------------

lemma q_from_codes_AISGE : q_from_codes AISGE = some (fn_match AISGE_FN) := by
  with_unfolding_all rfl

lemma q_from_codes_APEC : q_from_codes APEC = some (fn_match APEC_FN) := by
  with_unfolding_all rfl

lemma q_from_codes_TRANSPORTS :
    q_from_codes [TRANSPORTS_REGION] = some (fn_match TRANSPORTS_FN) := by
  with_unfolding_all rfl

lemma q_from_codes_CANTON :
    q_from_codes [SOCIAL_SECURITY, PEREQUATION, POLICE] = some (fn_match CANTON_FN) := by
  with_unfolding_all rfl

/-- Evaluated form of `compute_intercos`: the code tables all parse, and
each Q predicate reduces to a `(function, nature)` membership test. -/
lemma compute_intercos_eq (qs : List Account) :
    compute_intercos qs = some (intercosD qs) := by
  unfold compute_intercos intercosD
  rw [q_from_codes_AISGE, q_from_codes_APEC, q_from_codes_TRANSPORTS, q_from_codes_CANTON]
  rfl

/-- Evaluated form of `compute_canton_breakdown`. -/
lemma compute_canton_breakdown_eq (qs : List Account) :
    compute_canton_breakdown qs = some (cantonD qs) := by
  with_unfolding_all rfl

/-- Evaluated form of `compute_commune_breakdown`. -/
lemma compute_commune_breakdown_eq (qs : List Account) :
    compute_commune_breakdown qs = some (communeD qs) := by
  with_unfolding_all rfl

/-- Evaluated form of the graph builder. -/
lemma build_income_eq (qs : List Account) :
    build_income_budget_canton_intercos_commune qs
      = some (build_income_core (compute_bucket_sums qs) (cantonD qs)
          (intercosD qs) (communeD qs)) := by
  unfold build_income_budget_canton_intercos_commune
  rw [compute_canton_breakdown_eq, compute_intercos_eq, compute_commune_breakdown_eq]
  rfl

/-- Evaluated form of the builder's residual. -/
lemma remainder_of_eq (qs : List Account) :
    remainder_of qs = some (total_left_of qs
      - (max 0 (cantonD qs).total + max 0 (intercosD qs).total
        + max 0 (communeD qs).total)) := by
  unfold remainder_of
  rw [compute_canton_breakdown_eq, compute_intercos_eq, compute_commune_breakdown_eq]
  rfl

set_option maxHeartbeats 1000000 in
lemma intercos_pointwise_count (a : Account) (h1 : natureInRange a 350 359 = true)
    (h2 : fn_match CANTON_FN a = false) :
    List.count true
      [fn_match AISGE_FN a, fn_match APEC_FN a, fn_match TRANSPORTS_FN a,
       natureInRange a 350 359 && !(fn_match AISGE_FN a || fn_match APEC_FN a
         || fn_match TRANSPORTS_FN a || fn_match CANTON_FN a)] = 1 := by
  rcases hb1 : fn_match AISGE_FN a with - | - <;>
    rcases hb2 : fn_match APEC_FN a with - | - <;>
      rcases hb3 : fn_match TRANSPORTS_FN a with - | - <;>
        simp_all [List.count_cons, fn_match, AISGE_FN, APEC_FN, TRANSPORTS_FN,
          CANTON_FN, natureInRange] <;> omega

/-- C4 counterexample: the account `160.352` is on the `ASSOCIATIONS` code
list, yet `compute_intercos` puts its 100 of charges into
"other intercommunalities" — the associations list is *not* excluded from
that bucket, contradicting the claim (the claim-side bucket value is 0). -/
theorem compute_intercos_counterexample :
    (compute_intercos [cexAssocAcc]).map (·.other) = some 100
    ∧ intercos_other_per_claim [cexAssocAcc] = some 0
    ∧ ASSOCIATIONS.contains "160.352" = true := by
  with_unfolding_all decide

/-- C4 (amended): every 350–359 charge that does not match one of the
three canton codes is assigned to exactly one of AISGE, APEC, regional
transports or "other intercommunalities", where the "other" bucket is the
350–359 base minus the canton codes and minus the explicit AISGE, APEC and
transport-region lists only — the associations list is **not** excluded
(such accounts land in "other"), canton-code amounts are in none of the
four buckets, and matching is by `(function, nature)` alone. -/
theorem compute_intercos_amended :
    ∀ (qs : List Account) (d : IntercosBreakdown),
      compute_intercos qs = some d →
      (d.other = max 0 (sum_field qs (fun a => natureInRange a 350 359
          && !(fn_match AISGE_FN a || fn_match APEC_FN a || fn_match TRANSPORTS_FN a
            || fn_match CANTON_FN a)) (·.charges)))
      ∧ (∀ a : Account, natureInRange a 350 359 = true →
          fn_match CANTON_FN a = false →
          List.count true
            [fn_match AISGE_FN a, fn_match APEC_FN a, fn_match TRANSPORTS_FN a,
             natureInRange a 350 359 && !(fn_match AISGE_FN a || fn_match APEC_FN a
               || fn_match TRANSPORTS_FN a || fn_match CANTON_FN a)] = 1) := by
  intro qs d hd
  rw [compute_intercos_eq] at hd
  obtain rfl : _ = d := Option.some_inj.mp hd
  exact ⟨rfl, fun a h1 h2 => intercos_pointwise_count a h1 h2⟩

/-- Witness for C4: the association account `160.352` (in the 350–359
range, not a canton code) is in exactly one bucket. -/
theorem compute_intercos_amended_witness :
    List.count true
      [fn_match AISGE_FN cexAssocAcc, fn_match APEC_FN cexAssocAcc,
       fn_match TRANSPORTS_FN cexAssocAcc,
       natureInRange cexAssocAcc 350 359
         && !(fn_match AISGE_FN cexAssocAcc || fn_match APEC_FN cexAssocAcc
           || fn_match TRANSPORTS_FN cexAssocAcc
           || fn_match CANTON_FN cexAssocAcc)] = 1 :=
  (compute_intercos_amended [cexAssocAcc] _ (compute_intercos_eq [cexAssocAcc])).2
    cexAssocAcc (by decide) (by decide)

-- ----- C1 / C10: flow-graph builder normal form ------------------------------

@[simp] lemma push_node_idx (st : BuildSt) (k : String) (v : Rat) (c : String) :
    (push_node st k v c).idx = (k, st.nodes.length) :: st.idx := rfl

@[simp] lemma push_node_nodes (st : BuildSt) (k : String) (v : Rat) (c : String) :
    (push_node st k v c).nodes = st.nodes ++ [⟨k, v, c⟩] := rfl

@[simp] lemma push_node_links (st : BuildSt) (k : String) (v : Rat) (c : String) :
    (push_node st k v c).links = st.links := rfl

@[simp] lemma add_link_idx (st : BuildSt) (s d : String) (v : Rat) (c : String) :
    (add_link st s d v c).idx = st.idx := by
  unfold add_link
  split <;> rfl

@[simp] lemma add_link_nodes (st : BuildSt) (s d : String) (v : Rat) (c : String) :
    (add_link st s d v c).nodes = st.nodes := by
  unfold add_link
  split <;> rfl

@[simp] lemma add_link_links (st : BuildSt) (s d : String) (v : Rat) (c : String) :
    (add_link st s d v c).links
      = st.links ++ linkIf (idxOf st s) (idxOf st d) v := by
  unfold add_link linkIf
  split <;> simp

@[simp] lemma idxOf_add_link (st : BuildSt) (s d : String) (v : Rat) (c : String)
    (key : String) : idxOf (add_link st s d v c) key = idxOf st key := by
  unfold idxOf
  rw [add_link_idx]

@[simp] lemma idxOf_push_node (st : BuildSt) (k : String) (v : Rat) (c : String)
    (key : String) :
    idxOf (push_node st k v c) key
      = if k == key then st.nodes.length else idxOf st key := by
  unfold idxOf
  rw [push_node_idx]
  rcases h : k == key with - | -
  · simp [List.find?_cons, h]
  · simp [List.find?_cons, h]

lemma build_income_core_links (rev : BucketSums) (canton : CantonBreakdown)
    (inter : IntercosBreakdown) (commune : CommuneBreakdown) :
    (build_income_core rev canton inter commune).links =
      linkIf 0 6 (max 0 rev.impots) ++ linkIf 1 6 (max 0 rev.randoms)
      ++ linkIf 2 6 (max 0 rev.levies) ++ linkIf 3 6 (max 0 rev.rentals)
      ++ linkIf 4 6 (max 0 rev.interests) ++ linkIf 5 6 (max 0 rev.others)
      ++ linkIf 6 7 (max 0 canton.total) ++ linkIf 6 8 (max 0 inter.total)
      ++ linkIf 6 9 (max 0 commune.total)
      ++ linkIf 7 10 canton.social ++ linkIf 7 11 canton.equalization
      ++ linkIf 7 12 canton.police
      ++ linkIf 8 13 inter.aisge ++ linkIf 8 14 inter.apec
      ++ linkIf 8 15 inter.transports ++ linkIf 8 16 inter.other
      ++ linkIf 9 17 commune.wages ++ linkIf 9 18 commune.goods
      ++ linkIf 9 19 commune.interests ++ linkIf 9 20 commune.aids
      ++ (if MIN_VAL < |(max 0 rev.impots + max 0 rev.randoms + max 0 rev.levies
            + max 0 rev.rentals + max 0 rev.interests + max 0 rev.others)
            - (max 0 canton.total + max 0 inter.total + max 0 commune.total)| then
          (linkIf 6 21 ((max 0 rev.impots + max 0 rev.randoms + max 0 rev.levies
            + max 0 rev.rentals + max 0 rev.interests + max 0 rev.others)
            - (max 0 canton.total + max 0 inter.total + max 0 commune.total))
          ++ linkIf 21 22 0 ++ linkIf 21 23 0
          ++ linkIf 21 24 ((max 0 rev.impots + max 0 rev.randoms + max 0 rev.levies
            + max 0 rev.rentals + max 0 rev.interests + max 0 rev.others)
            - (max 0 canton.total + max 0 inter.total + max 0 commune.total) - 0 - 0))
        else []) := by
  unfold build_income_core
  split <;> rename_i h <;> simp [h, List.append_assoc, BuildSt.empty, NODE_HOUSEHOLD, NODE_CANTON, NODE_INTERCOS, NODE_COMMUNE,
    NODE_RESULT, KEY_SOCIAL, KEY_EQUALIZATION, KEY_POLICE, KEY_AISGE, KEY_APEC,
    KEY_TRANSPORTS, KEY_INTERCOS_OTHER, KEY_WAGES, KEY_GOODS, KEY_INTERESTS,
    KEY_AIDS, KEY_IMPOTS, KEY_RANDOMS, KEY_LEVIES, KEY_RENTALS, KEY_INTERESTS_REV,
    KEY_OTHERS_REV, KEY_AMORT, KEY_FUNDS, KEY_PROFIT]

lemma build_income_core_nodes (rev : BucketSums) (canton : CantonBreakdown)
    (inter : IntercosBreakdown) (commune : CommuneBreakdown) :
    ((build_income_core rev canton inter commune).nodes.map (·.key)) =
      [KEY_IMPOTS, KEY_RANDOMS, KEY_LEVIES, KEY_RENTALS, KEY_INTERESTS_REV,
       KEY_OTHERS_REV, NODE_HOUSEHOLD, NODE_CANTON, NODE_INTERCOS, NODE_COMMUNE,
       KEY_SOCIAL, KEY_EQUALIZATION, KEY_POLICE, KEY_AISGE, KEY_APEC,
       KEY_TRANSPORTS, KEY_INTERCOS_OTHER, KEY_WAGES, KEY_GOODS, KEY_INTERESTS,
       KEY_AIDS]
      ++ (if MIN_VAL < |(max 0 rev.impots + max 0 rev.randoms + max 0 rev.levies
            + max 0 rev.rentals + max 0 rev.interests + max 0 rev.others)
            - (max 0 canton.total + max 0 inter.total + max 0 commune.total)| then
          [NODE_RESULT, KEY_AMORT, KEY_FUNDS, KEY_PROFIT] else []) := by
  unfold build_income_core
  split <;> rename_i h <;> simp [h, BuildSt.empty, NODE_HOUSEHOLD, NODE_CANTON, NODE_INTERCOS, NODE_COMMUNE,
    NODE_RESULT, KEY_SOCIAL, KEY_EQUALIZATION, KEY_POLICE, KEY_AISGE, KEY_APEC,
    KEY_TRANSPORTS, KEY_INTERCOS_OTHER, KEY_WAGES, KEY_GOODS, KEY_INTERESTS,
    KEY_AIDS, KEY_IMPOTS, KEY_RANDOMS, KEY_LEVIES, KEY_RENTALS, KEY_INTERESTS_REV,
    KEY_OTHERS_REV, KEY_AMORT, KEY_FUNDS, KEY_PROFIT]

lemma pos_of_mem_linkIf {l : SLink} {s t : Nat} {v : Rat}
    (h : l ∈ linkIf s t v) : 0 < l.value := by
  unfold linkIf at h
  split at h
  · rcases List.mem_singleton.mp h with rfl
    assumption
  · exact absurd h (List.not_mem_nil l)

lemma srcSum_linkIf (i s t : Nat) (v : Rat) :
    (((linkIf s t v).filter (fun l => l.source == i)).map (·.value)).sum
      = if s = i ∧ 0 < v then v else 0 := by
  unfold linkIf
  rcases lt_or_le 0 v with hv | hv
  · rcases eq_or_ne s i with rfl | hs
    · simp [hv]
    · simp [hv, hs]
  · simp [not_lt.mpr hv]

lemma tgtSum_linkIf (i s t : Nat) (v : Rat) :
    (((linkIf s t v).filter (fun l => l.target == i)).map (·.value)).sum
      = if t = i ∧ 0 < v then v else 0 := by
  unfold linkIf
  rcases lt_or_le 0 v with hv | hv
  · rcases eq_or_ne t i with rfl | ht
    · simp [hv]
    · simp [hv, ht]
  · simp [not_lt.mpr hv]

lemma ite_pos_of_nonneg {v : Rat} (h : 0 ≤ v) : (if 0 < v then v else 0) = v := by
  rcases h.lt_or_eq with h1 | h1
  · simp [h1]
  · simp [← h1]

lemma ite_pos_max (x : Rat) : (if 0 < max 0 x then max 0 x else 0) = max 0 x :=
  ite_pos_of_nonneg (le_max_left 0 x)

lemma ite_pos_max' (x : Rat) : (if 0 < x then max 0 x else 0) = max 0 x := by
  rcases lt_or_le 0 x with h | h
  · simp [h]
  · simp [not_lt.mpr h, max_eq_left h]

/-- C1 counterexample: a collection holding one wages charge (100) and no
revenue.  The residual is −100, beyond the tolerance, so the synthetic
result node **is** appended — but `_add_link` drops the non-positive
household→result edge, the link list is just household→commune, and the
flow out of the household hub (100) differs from the flow into it (0). -/
theorem build_income_flow_counterexample :
    (build_income_budget_canton_intercos_commune [cexChargeAcc]).map
        (fun g => (sumOut g householdIdx, sumIn g householdIdx)) = some (100, 0)
    ∧ remainder_of [cexChargeAcc] = some (-100)
    ∧ (build_income_budget_canton_intercos_commune [cexChargeAcc]).map
        (fun g => g.nodes.any (fun n => n.key == NODE_RESULT)) = some true
    ∧ (build_income_budget_canton_intercos_commune [cexChargeAcc]).map
        (·.links) = some [⟨householdIdx, 9, 100⟩, ⟨9, 17, 100⟩] := by
  with_unfolding_all decide

/-- C1 (amended): whenever the residual exceeds `MIN_VAL` *positively*,
the output contains the synthetic result node and a household→result edge
carrying the residual, and the values of the edges leaving the household
hub sum to exactly the values of the edges entering it.  (For residuals
below `-MIN_VAL` the result node is appended but `_add_link` drops the
non-positive edge, so conservation fails there — see the
counterexample.) -/
theorem build_income_flow_conservation_amended :
    ∀ (qs : List Account) (g : SGraph) (r : Rat),
      build_income_budget_canton_intercos_commune qs = some g →
      remainder_of qs = some r →
      MIN_VAL < r →
      NODE_RESULT ∈ g.nodes.map (·.key)
      ∧ (⟨householdIdx, 21, r⟩ : SLink) ∈ g.links
      ∧ sumOut g householdIdx = sumIn g householdIdx := by
  intro qs g r hg hr hmin
  rw [build_income_eq] at hg
  rw [remainder_of_eq] at hr
  obtain rfl : _ = g := Option.some_inj.mp hg
  obtain rfl : _ = r := Option.some_inj.mp hr
  simp only [total_left_of] at hmin ⊢
  set rev := compute_bucket_sums qs with hrev
  set canton := cantonD qs with hcanton
  set inter := intercosD qs with hinter
  set commune := communeD qs with hcommune
  set rem := max 0 rev.impots + max 0 rev.randoms + max 0 rev.levies
    + max 0 rev.rentals + max 0 rev.interests + max 0 rev.others
    - (max 0 canton.total + max 0 inter.total + max 0 commune.total) with hrem
  have hr0 : (0 : Rat) < rem := lt_trans (by norm_num [MIN_VAL]) hmin
  have habs : MIN_VAL < |rem| := by rwa [abs_of_pos hr0]
  refine ⟨?_, ?_, ?_⟩
  · rw [build_income_core_nodes]
    rw [← hrem, if_pos habs]
    simp
  · rw [build_income_core_links]
    rw [← hrem, if_pos habs]
    simp [linkIf, hr0, householdIdx]
  · unfold sumOut sumIn
    rw [build_income_core_links]
    rw [← hrem, if_pos habs]
    simp only [householdIdx, List.filter_append, List.map_append, List.sum_append,
      srcSum_linkIf, tgtSum_linkIf]
    norm_num [ite_pos_max', hr0]
    rw [hrem]
    ring

/-- Witness for C1 at a concrete revenue-only collection (residual 1000):
flow conservation holds at the household hub. -/
theorem build_income_flow_conservation_amended_witness :
    (build_income_budget_canton_intercos_commune [wRevAcc]).map
        (fun g => decide (sumOut g householdIdx = sumIn g householdIdx)) = some true := by
  have h := build_income_flow_conservation_amended [wRevAcc] _ _
    (build_income_eq [wRevAcc]) (remainder_of_eq [wRevAcc])
    (by with_unfolding_all decide)
  rw [build_income_eq]
  simp [h.2.2]

-- ----- C10: every emitted edge is strictly positive -------------------------

lemma foldl_append_mem {α β : Type} (F : β → List α) :
    ∀ (rows : List β) (init : List α) (l : α),
      l ∈ rows.foldl (fun acc row => acc ++ F row) init →
      l ∈ init ∨ ∃ row ∈ rows, l ∈ F row := by
  intro rows
  induction rows with
  | nil => exact fun init l h => Or.inl h
  | cons r t ih =>
    intro init l h
    rcases ih _ l h with h1 | ⟨row, hrow, hl⟩
    · rcases List.mem_append.mp h1 with h2 | h2
      · exact Or.inl h2
      · exact Or.inr ⟨r, by simp, h2⟩
    · exact Or.inr ⟨row, by simp [hrow], hl⟩

lemma pos_of_mem_sankeyLinksFor {l : SLink} {vm : ValueMode} {ma : Rat}
    {iRev iChg idx : Nat} {tc tr : Rat}
    (h : l ∈ sankeyLinksFor vm ma iRev iChg idx tc tr) : 0 < l.value := by
  cases vm
  case net =>
    simp only [sankeyLinksFor] at h
    split at h
    · exact absurd h (List.not_mem_nil l)
    · rename_i hcond
      rw [not_or] at hcond
      have hpos : 0 < |tr - tc| :=
        lt_of_le_of_ne (abs_nonneg _) (Ne.symm hcond.2)
      split at h <;> (rcases List.mem_singleton.mp h with rfl; exact hpos)
  case revenues =>
    simp only [sankeyLinksFor] at h
    split at h
    · rename_i hcond
      rcases List.mem_singleton.mp h with rfl
      exact hcond.2
    · exact absurd h (List.not_mem_nil l)
  case charges =>
    simp only [sankeyLinksFor] at h
    split at h
    · rename_i hcond
      rcases List.mem_singleton.mp h with rfl
      exact hcond.2
    · exact absurd h (List.not_mem_nil l)

lemma mem_add_node_self (ns : List NodeLabel) (lbl : NodeLabel) :
    lbl ∈ (add_node ns lbl).1 := by
  unfold add_node
  split
  · rename_i h
    simpa [List.elem_iff] using h
  · simp

lemma mem_add_node_mono (ns : List NodeLabel) (lbl x : NodeLabel) (h : x ∈ ns) :
    x ∈ (add_node ns lbl).1 := by
  unfold add_node
  split
  · exact h
  · simp [h]

lemma sankey_fold_nodes_mono :
    ∀ (rows : List (SankeyKey × NodeLabel × Rat × Rat))
      (acc : List NodeLabel × List (SankeyKey × Nat)) (x : NodeLabel),
      x ∈ acc.1 →
      x ∈ (rows.foldl (fun acc row =>
        let r := add_node acc.1 row.2.1
        (r.1, acc.2 ++ [(row.1, r.2)])) acc).1 := by
  intro rows
  induction rows with
  | nil => exact fun acc x h => h
  | cons r t ih =>
    intro acc x h
    exact ih _ x (mem_add_node_mono _ _ _ h)

lemma sankey_fold_nodes_mem :
    ∀ (rows : List (SankeyKey × NodeLabel × Rat × Rat))
      (acc : List NodeLabel × List (SankeyKey × Nat))
      (row : SankeyKey × NodeLabel × Rat × Rat), row ∈ rows →
      row.2.1 ∈ (rows.foldl (fun acc row =>
        let r := add_node acc.1 row.2.1
        (r.1, acc.2 ++ [(row.1, r.2)])) acc).1 := by
  intro rows
  induction rows with
  | nil => intro acc row h; exact absurd h (List.not_mem_nil row)
  | cons r t ih =>
    intro acc row h
    rcases List.mem_cons.mp h with rfl | h2
    · exact sankey_fold_nodes_mono t _ _ (mem_add_node_self _ _)
    · exact ih _ row h2

/-- C10: every edge emitted by either flow-graph builder carries a
strictly positive value (zero or negative flows produce no edge), while
the node set does not depend on the flow values: the income builder always
creates its 21 base nodes, and `build_sankey_data` creates its node list
independently of the value mode and threshold, one (label-deduplicated)
node per aggregation key even when that key contributes no link. -/
theorem builders_emit_only_positive_edges :
    (∀ (qs : List Account) (g : SGraph),
      build_income_budget_canton_intercos_commune qs = some g →
      (∀ l ∈ g.links, 0 < l.value) ∧ 21 ≤ g.nodes.length)
    ∧ (∀ (qs : List Account) (gb : GroupBy) (vm : ValueMode) (ma : Rat),
      (∀ l ∈ (build_sankey_data qs gb vm ma).links, 0 < l.value)
      ∧ (∀ (vm' : ValueMode) (ma' : Rat),
          (build_sankey_data qs gb vm ma).nodes
            = (build_sankey_data qs gb vm' ma').nodes)
      ∧ (∀ row ∈ sankeyAgg qs gb, row.2.1 ∈ (build_sankey_data qs gb vm ma).nodes)) := by
  constructor
  · intro qs g hg
    rw [build_income_eq] at hg
    obtain rfl : _ = g := Option.some_inj.mp hg
    constructor
    · intro l hl
      rw [build_income_core_links] at hl
      split at hl <;>
        simp only [List.mem_append, List.not_mem_nil, or_false] at hl <;>
        (repeat' (rcases hl with hl | hl)) <;>
        exact pos_of_mem_linkIf hl
    · have hkeys := congrArg List.length (build_income_core_nodes
        (compute_bucket_sums qs) (cantonD qs) (intercosD qs) (communeD qs))
      simp only [List.length_map, List.length_append, List.length_cons,
        List.length_nil] at hkeys
      split at hkeys <;> omega
  · intro qs gb vm ma
    refine ⟨?_, fun vm' ma' => rfl, ?_⟩
    · intro l hl
      unfold build_sankey_data at hl
      simp only at hl
      rcases foldl_append_mem _ _ _ _ hl with h | ⟨row, -, h⟩
      · exact absurd h (List.not_mem_nil l)
      · exact pos_of_mem_sankeyLinksFor h
    · intro row hrow
      unfold build_sankey_data
      simp only
      exact sankey_fold_nodes_mem _ _ row hrow

/-- Witness for C10 at concrete inputs: the single edge of a one-account
collection is positive, and its label node exists in both modes. -/
theorem builders_emit_only_positive_edges_witness :
    ((build_income_budget_canton_intercos_commune [cexChargeAcc]).map
        (fun g => g.links.all (fun l => decide (0 < l.value)))) = some true
    ∧ (build_sankey_data [cexChargeAcc] .group .net 0).nodes
        = (build_sankey_data [cexChargeAcc] .group .charges 5).nodes := by
  constructor
  · rw [build_income_eq]
    have h := ((builders_emit_only_positive_edges.1 [cexChargeAcc] _
      (build_income_eq [cexChargeAcc]))).1
    simp only [Option.map_some', Option.some_inj, List.all_eq_true,
      decide_eq_true_eq]
    exact fun l hl => h l hl
  · exact (builders_emit_only_positive_edges.2 [cexChargeAcc] .group .net 0).2.1
      .charges 5

-- ----- C6: reconciliation zero-fill -----------------------------------------

lemma mem_get_actual {db : List Account} {year : Int} {gids : List Int} {a : Account}
    (h : a ∈ get_actual_accounts db year gids) :
    a ∈ db ∧ a.year = year ∧ a.is_budget = false := by
  unfold get_actual_accounts at h
  split at h
  · have h2 := List.mem_filter.mp h
    refine ⟨h2.1, ?_, ?_⟩
    · have := h2.2
      simp only [Bool.and_eq_true, beq_iff_eq, Bool.not_eq_true'] at this
      exact this.1.1.1
    · have := h2.2
      simp only [Bool.and_eq_true, beq_iff_eq, Bool.not_eq_true'] at this
      exact this.1.1.2
  · have h1 := List.mem_filter.mp h
    have h2 := List.mem_filter.mp h1.1
    refine ⟨h2.1, ?_, ?_⟩
    · have := h2.2
      simp only [Bool.and_eq_true, beq_iff_eq, Bool.not_eq_true'] at this
      exact this.1.1.1
    · have := h2.2
      simp only [Bool.and_eq_true, beq_iff_eq, Bool.not_eq_true'] at this
      exact this.1.1.2

lemma head?_eq_of_all_eq {α : Type} {l : List α} {b : α}
    (hb : b ∈ l) (hall : ∀ c ∈ l, c = b) : l.head? = some b := by
  cases l with
  | nil => exact absurd hb (List.not_mem_nil b)
  | cons c t => simp [hall c (by simp)]

lemma getLast?_eq_head?_of_all_eq {α : Type} {l : List α}
    (hall : ∀ x ∈ l, ∀ y ∈ l, x = y) : l.getLast? = l.head? := by
  cases l with
  | nil => rfl
  | cons c t =>
    rw [List.head?_cons, List.getLast?_eq_getLast _ (by simp)]
    have : (c :: t).getLast (by simp) ∈ c :: t := List.getLast_mem _
    rw [hall _ this c (by simp)]

/-- C6: after `AccountExplorerMixin.get_accounts` for a year that has
actual rows, every returned account carries `budget_charges` and
`budget_revenues` — equal to the same-key, same-year budget row's figures
when such a counterpart exists and `Decimal("0.00")` otherwise, never a
missing attribute.  The hypotheses are the upstream uniqueness invariant
(at most one row per `(year, function, nature, sub_account, is_budget)`)
and that the year has actual rows. -/
theorem account_get_accounts_budget_defaults :
    ∀ (db : List Account) (year : Int) (group_ids : List Int),
      (∀ b1 ∈ db, ∀ b2 ∈ db, b1.year = b2.year → akey b1 = akey b2 →
        b1.is_budget = b2.is_budget → b1 = b2) →
      (get_actual_accounts db year group_ids).isEmpty = false →
      ∀ x ∈ account_get_accounts db year group_ids,
        x.budget_charges
          = some (((budget_counterpart db year x.acc).map (·.charges)).getD 0)
        ∧ x.budget_revenues
          = some (((budget_counterpart db year x.acc).map (·.revenues)).getD 0) := by
  intro db year gids huniq hne x hx
  unfold account_get_accounts at hx
  rw [if_neg (by simp [hne])] at hx
  set actuals := get_actual_accounts db year gids with hact
  unfold ensure_budget_defaults attach_budget_data at hx
  rw [List.map_map] at hx
  obtain ⟨a, ha, rfl⟩ := List.mem_map.mp hx
  obtain ⟨hadb, hay, hab⟩ := mem_get_actual (hact ▸ ha)
  -- the budget rows selected by `_attach_budget_data` that match a's key
  -- are exactly the claim-side counterpart rows
  have hsame : ∀ b : Account,
      (b ∈ (db.filter (fun b => b.year == year && b.is_budget
          && ((actuals.map akey).map (fun k => k.1)).contains b.function
          && ((actuals.map akey).map (fun k => k.2.1)).contains b.nature)).filter
            (fun b => akey b == akey a))
      ↔ (b ∈ db.filter (fun b => b.is_budget && b.year == year
          && akey b == akey a)) := by
    intro b
    simp only [List.mem_filter, Bool.and_eq_true, beq_iff_eq]
    constructor
    · rintro ⟨⟨hdb, ⟨⟨hy, hbud⟩, -⟩, -⟩, hkey⟩
      exact ⟨hdb, ⟨hbud, hy⟩, hkey⟩
    · rintro ⟨hdb, ⟨hbud, hy⟩, hkey⟩
      refine ⟨⟨hdb, ⟨⟨hy, hbud⟩, ?_⟩, ?_⟩, hkey⟩
      · have hm : a.function ∈ (actuals.map akey).map (fun k => k.1) :=
          List.mem_map_of_mem _ (List.mem_map_of_mem akey ha)
        have hbf : b.function = a.function := congrArg (fun k => k.1) hkey
        rw [hbf]
        simpa [List.contains, List.elem_eq_mem] using hm
      · have hm : a.nature ∈ (actuals.map akey).map (fun k => k.2.1) :=
          List.mem_map_of_mem _ (List.mem_map_of_mem akey ha)
        have hbn : b.nature = a.nature := congrArg (fun k => k.2.1) hkey
        rw [hbn]
        simpa [List.contains, List.elem_eq_mem] using hm
  -- every counterpart row equals every other (uniqueness)
  have halleq : ∀ x ∈ db.filter (fun b => b.is_budget && b.year == year
      && akey b == akey a), ∀ y ∈ db.filter (fun b => b.is_budget
      && b.year == year && akey b == akey a), x = y := by
    intro x hxm y hym
    have hx1 := List.mem_filter.mp hxm
    have hy1 := List.mem_filter.mp hym
    simp only [Bool.and_eq_true, beq_iff_eq] at hx1 hy1
    exact huniq x hx1.1 y hy1.1 (by rw [hx1.2.1.2, hy1.2.1.2])
      (by rw [hx1.2.2, hy1.2.2]) (by rw [hx1.2.1.1, hy1.2.1.1])
  -- a is its own dict winner: actual keys are pairwise injective
  have hwin : dictWinner actuals a = true := by
    unfold dictWinner
    rcases hf : actuals.reverse.find? (fun x => akey x == akey a) with - | w
    · exfalso
      have : ∃ x ∈ actuals.reverse, (fun x => akey x == akey a) x = true :=
        ⟨a, List.mem_reverse.mpr ha, by simp⟩
      rw [← List.find?_isSome, hf] at this
      simp at this
    · have hw1 : akey w = akey a := by
        have := List.find?_some hf
        simpa using this
      have hw2 : w ∈ actuals := List.mem_reverse.mp (List.mem_of_find?_eq_some hf)
      obtain ⟨hwdb, hwy, hwb⟩ := mem_get_actual (hact ▸ hw2)
      have : w = a := huniq w hwdb a hadb (by rw [hwy, hay]) hw1
        (by rw [hwb, hab])
      simp [this]
  -- analyse the budget lookup
  simp only [Function.comp_apply]
  rcases hL : ((db.filter (fun b => b.year == year && b.is_budget
      && ((actuals.map akey).map (fun k => k.1)).contains b.function
      && ((actuals.map akey).map (fun k => k.2.1)).contains b.nature)).filter
        (fun b => akey b == akey a)).getLast? with - | b
  · -- no counterpart: zero-filled
    have hnil : db.filter (fun b => b.is_budget && b.year == year
        && akey b == akey a) = [] := by
      rw [List.eq_nil_iff_forall_not_mem]
      intro c hc
      have hmem := (hsame c).mpr hc
      rw [List.getLast?_eq_none_iff.mp hL] at hmem
      exact absurd hmem (List.not_mem_nil c)
    have hcp : budget_counterpart db year a = none := by
      unfold budget_counterpart
      rw [hnil]
      rfl
    simp only [hL, hcp]
    simp
  · -- the counterpart exists and is unique
    have hbmem := List.mem_of_mem_getLast? hL
    have hbcp := (hsame b).mp hbmem
    have hcp : budget_counterpart db year a = some b := by
      unfold budget_counterpart
      exact head?_eq_of_all_eq hbcp (fun c hc => halleq c hc b hbcp)
    simp only [hL, hcp]
    simp [hwin, hcp]

set_option maxRecDepth 8000 in
/-- Witness for C6 on a concrete three-row collection: the actual with a
counterpart gets the counterpart's figures. -/
theorem account_get_accounts_budget_defaults_witness :
    wActX.budget_charges = some (((budget_counterpart [wActAcc, wBudAcc, wLoneAcc]
        2024 wActX.acc).map (·.charges)).getD 0)
    ∧ wActX.budget_revenues = some (((budget_counterpart [wActAcc, wBudAcc, wLoneAcc]
        2024 wActX.acc).map (·.revenues)).getD 0) :=
  account_get_accounts_budget_defaults [wActAcc, wBudAcc, wLoneAcc] 2024 []
    (by with_unfolding_all decide) (by with_unfolding_all decide) wActX
    (by with_unfolding_all decide)

-- ----- C9 / C5: the Python sort model ---------------------------------------

lemma pyInsert_eq_some {α : Type} (lt : α → α → Option Bool) (x : α) :
    ∀ l : List α, (∀ y ∈ l, (lt x y).isSome) →
      ∃ r, pyInsert lt x l = some r := by
  intro l
  induction l with
  | nil => exact fun _ => ⟨[x], rfl⟩
  | cons y ys ih =>
    intro h
    have h0 : (lt x y).isSome := h y (by simp)
    rcases hxy : lt x y with - | b
    · rw [hxy] at h0
      simp at h0
    · cases b
      · obtain ⟨r, hr⟩ := ih (fun z hz => h z (by simp [hz]))
        exact ⟨y :: r, by simp [pyInsert, hxy, hr]⟩
      · exact ⟨x :: y :: ys, by simp [pyInsert, hxy]⟩

lemma pyInsert_perm {α : Type} (lt : α → α → Option Bool) (x : α) :
    ∀ l r : List α, pyInsert lt x l = some r → r.Perm (x :: l) := by
  intro l
  induction l with
  | nil =>
    intro r h
    simp only [pyInsert, Option.some_inj] at h
    rw [← h]
  | cons y ys ih =>
    intro r h
    unfold pyInsert at h
    rcases hxy : lt x y with - | b
    · rw [hxy] at h
      simp at h
    · rw [hxy] at h
      cases b
      · simp at h
        rcases hr : pyInsert lt x ys with - | r2
        · rw [hr] at h
          simp at h
        · rw [hr] at h
          simp at h
          rw [← h]
          exact ((ih r2 hr).cons y).trans (List.Perm.swap x y ys)
      · simp at h
        rw [← h]
lemma pyInsert_head {α : Type} (lt : α → α → Option Bool) (x : α) :
    ∀ l r : List α, pyInsert lt x l = some r →
      r.head? = some x ∨ r.head? = l.head? := by
  intro l
  induction l with
  | nil =>
    intro r h
    simp only [pyInsert, Option.some_inj] at h
    rw [← h]
    simp
  | cons y ys ih =>
    intro r h
    unfold pyInsert at h
    rcases hxy : lt x y with - | b
    · rw [hxy] at h
      simp at h
    · rw [hxy] at h
      cases b
      · simp at h
        rcases hr : pyInsert lt x ys with - | r2
        · rw [hr] at h
          simp at h
        · rw [hr] at h
          simp at h
          rw [← h]
          simp
      · simp at h
        rw [← h]
        simp

lemma pyInsert_chain {α : Type} (lt : α → α → Option Bool)
    (hasym : ∀ a b, lt a b = some true → ¬ lt b a = some true) (x : α) :
    ∀ l r : List α, pyInsert lt x l = some r →
      l.Chain' (fun a b => lt b a ≠ some true) →
      r.Chain' (fun a b => lt b a ≠ some true) := by
  intro l
  induction l with
  | nil =>
    intro r h hc
    simp only [pyInsert, Option.some_inj] at h
    rw [← h]
    simp
  | cons y ys ih =>
    intro r h hc
    unfold pyInsert at h
    rcases hxy : lt x y with - | b
    · rw [hxy] at h
      simp at h
    · rw [hxy] at h
      cases b
      · simp at h
        rcases hr : pyInsert lt x ys with - | r2
        · rw [hr] at h
          simp at h
        · rw [hr] at h
          simp at h
          rw [← h]
          rw [List.chain'_cons'] at hc
          have hr2 : r2.Chain' (fun a b => lt b a ≠ some true) :=
            ih r2 hr hc.2
          rw [List.chain'_cons']
          refine ⟨?_, hr2⟩
          intro z hz
          rcases pyInsert_head lt x ys r2 hr with hhd | hhd
          · rw [hhd] at hz
            obtain rfl : x = z := Option.some_inj.mp (Option.mem_def.mp hz)
            rw [hxy]
            simp
          · rw [hhd] at hz
            exact hc.1 z hz
      · simp at h
        rw [← h]
        rw [List.chain'_cons']
        refine ⟨?_, hc⟩
        intro z hz
        have hyz : y = z := by simpa using hz
        rw [← hyz]
        exact hasym x y hxy

lemma pySort_go {α : Type} (lt : α → α → Option Bool)
    (hasym : ∀ a b, lt a b = some true → ¬ lt b a = some true) :
    ∀ (l acc : List α),
      (∀ x ∈ l, ∀ y ∈ acc, (lt x y).isSome) →
      (∀ x ∈ l, ∀ y ∈ l, (lt x y).isSome) →
      acc.Chain' (fun a b => lt b a ≠ some true) →
      ∃ r, List.foldlM (fun acc x => pyInsert lt x acc) acc l = some r
        ∧ r.Perm (l ++ acc)
        ∧ r.Chain' (fun a b => lt b a ≠ some true) := by
  intro l
  induction l with
  | nil =>
    intro acc h1 h2 hc
    exact ⟨acc, rfl, by simp, hc⟩
  | cons x xs ih =>
    intro acc hacc hl hc
    obtain ⟨acc2, hacc2⟩ := pyInsert_eq_some lt x acc (hacc x (by simp))
    have hperm2 : acc2.Perm (x :: acc) := pyInsert_perm lt x acc acc2 hacc2
    have hchain2 : acc2.Chain' (fun a b => lt b a ≠ some true) :=
      pyInsert_chain lt hasym x acc acc2 hacc2 hc
    obtain ⟨r, hr, hrperm, hrchain⟩ := ih acc2
      (by
        intro z hz y hy
        rcases List.mem_cons.mp ((hperm2.mem_iff).mp hy) with rfl | hy2
        · exact hl z (by simp [hz]) y (by simp)
        · exact hacc z (by simp [hz]) y hy2)
      (fun z hz y hy => hl z (by simp [hz]) y (by simp [hy]))
      hchain2
    refine ⟨r, ?_, ?_, hrchain⟩
    · simp [List.foldlM_cons, hacc2, hr]
    · exact hrperm.trans ((List.Perm.append_left xs hperm2).trans List.perm_middle)

lemma pySort_eq_some {α : Type} (lt : α → α → Option Bool)
    (hasym : ∀ a b, lt a b = some true → ¬ lt b a = some true) (l : List α)
    (hpairs : ∀ x ∈ l, ∀ y ∈ l, (lt x y).isSome) :
    ∃ r, pySort lt l = some r ∧ r.Perm l
      ∧ r.Chain' (fun a b => lt b a ≠ some true) := by
  obtain ⟨r, hr, hp, hc⟩ := pySort_go lt hasym l [] (by simp) hpairs (by simp)
  exact ⟨r, hr, by simpa using hp, hc⟩

lemma keyLt_pair_asymm {β : Type} :
    ∀ a b : Int × β, (fun p q : Int × β => some (decide (p.1 < q.1))) a b = some true →
      ¬ (fun p q : Int × β => some (decide (p.1 < q.1))) b a = some true := by
  intro a b h hcon
  simp only [Option.some_inj, decide_eq_true_eq] at h hcon
  omega

lemma strKeyLt_pair_asymm {β : Type} :
    ∀ a b : String × β, (fun p q : String × β => some (decide (p.1 < q.1))) a b = some true →
      ¬ (fun p q : String × β => some (decide (p.1 < q.1))) b a = some true := by
  intro a b h hcon
  simp only [Option.some_inj, decide_eq_true_eq] at h hcon
  exact absurd hcon (not_lt_of_gt h)

lemma pyKeyLt_asymm :
    ∀ x y : XAccount, pyKeyLt x y = some true → ¬ pyKeyLt y x = some true := by
  intro x y h hcon
  unfold pyKeyLt at h hcon
  split_ifs at h hcon <;> simp_all <;> try omega
  all_goals
    rcases hsx : pySubKey x with s | i <;> rcases hsy : pySubKey y with t | j <;>
      rw [hsx, hsy] at h hcon <;> simp [pyLtSub] at h hcon <;>
      first
        | exact absurd hcon (not_lt_of_gt h)
        | omega

lemma mapM_some {α β : Type} (f : α → Option β) :
    ∀ l : List α, (∀ a ∈ l, (f a).isSome) →
      ∃ r, l.mapM f = some r ∧ List.Forall₂ (fun a b => f a = some b) l r := by
  intro l
  induction l with
  | nil => exact fun _ => ⟨[], rfl, List.Forall₂.nil⟩
  | cons a t ih =>
    intro h
    rcases hfa : f a with - | b
    · have h0 := h a (by simp)
      rw [hfa] at h0
      simp at h0
    · obtain ⟨r, hr, hf⟩ := ih (fun z hz => h z (by simp [hz]))
      refine ⟨b :: r, ?_, List.Forall₂.cons hfa hf⟩
      rw [List.mapM_cons, hfa, hr]
      rfl

lemma mapM_eq_some_forall₂ {α β : Type} (f : α → Option β) :
    ∀ (l : List α) (r : List β), l.mapM f = some r →
      List.Forall₂ (fun a b => f a = some b) l r := by
  intro l
  induction l with
  | nil =>
    intro r h
    rw [List.mapM_nil] at h
    obtain rfl : ([] : List β) = r := Option.some_inj.mp h
    exact List.Forall₂.nil
  | cons a t ih =>
    intro r h
    rw [List.mapM_cons] at h
    obtain ⟨b, hfa, h2⟩ := Option.bind_eq_some.mp h
    obtain ⟨r2, hm, h3⟩ := Option.bind_eq_some.mp h2
    obtain rfl : b :: r2 = r := Option.some_inj.mp h3
    exact List.Forall₂.cons hfa (ih r2 hm)

lemma forall₂_mem_right {α β : Type} {Q : α → β → Prop} :
    ∀ {l : List α} {r : List β}, List.Forall₂ Q l r →
      ∀ b ∈ r, ∃ a ∈ l, Q a b := by
  intro l r hf
  induction hf with
  | nil => exact fun b hb => absurd hb (List.not_mem_nil b)
  | cons ha ht ih =>
    intro b hb
    rcases List.mem_cons.mp hb with rfl | hb2
    · exact ⟨_, by simp, ha⟩
    · obtain ⟨a2, ha2, hq⟩ := ih b hb2
      exact ⟨a2, by simp [ha2], hq⟩

lemma forall₂_head {α β : Type} {Q : α → β → Prop} :
    ∀ {l : List α} {r : List β}, List.Forall₂ Q l r →
      ∀ b ∈ r.head?, ∃ a ∈ l.head?, Q a b := by
  intro l r hf
  cases hf with
  | nil => exact fun b hb => by simp at hb
  | cons ha ht =>
    intro b hb
    have : b = _ := (Option.some_inj.mp (Option.mem_def.mp hb)).symm
    exact ⟨_, by simp, this ▸ ha⟩

lemma chain'_transfer {α β : Type} {R : α → α → Prop} {S : β → β → Prop}
    {Q : α → β → Prop}
    (hQ : ∀ a b a2 b2, Q a a2 → Q b b2 → R a b → S a2 b2) :
    ∀ {l : List α} {r : List β}, List.Forall₂ Q l r → l.Chain' R → r.Chain' S := by
  intro l r hf
  induction hf with
  | nil => exact fun _ => List.chain'_nil
  | cons ha ht ih =>
    intro hc
    rw [List.chain'_cons'] at hc ⊢
    refine ⟨?_, ih hc.2⟩
    intro b2 hb2
    obtain ⟨a2, ha2, hq⟩ := forall₂_head ht b2 hb2
    exact hQ _ _ _ _ ha hq (hc.1 a2 ha2)

lemma pySort_go_props {α : Type} (lt : α → α → Option Bool)
    (hasym : ∀ a b, lt a b = some true → ¬ lt b a = some true) :
    ∀ (l acc r : List α),
      List.foldlM (fun acc x => pyInsert lt x acc) acc l = some r →
      acc.Chain' (fun a b => lt b a ≠ some true) →
      r.Perm (l ++ acc) ∧ r.Chain' (fun a b => lt b a ≠ some true) := by
  intro l
  induction l with
  | nil =>
    intro acc r h hc
    rw [List.foldlM_nil] at h
    obtain rfl : acc = r := Option.some_inj.mp h
    exact ⟨by simp, hc⟩
  | cons x xs ih =>
    intro acc r h hc
    rw [List.foldlM_cons] at h
    obtain ⟨acc2, ha, h2⟩ := Option.bind_eq_some.mp h
    have hperm2 := pyInsert_perm lt x acc acc2 ha
    have hchain2 := pyInsert_chain lt hasym x acc acc2 ha hc
    obtain ⟨hp, hcr⟩ := ih acc2 r h2 hchain2
    exact ⟨hp.trans ((List.Perm.append_left xs hperm2).trans List.perm_middle),
      hcr⟩

lemma pySort_props {α : Type} (lt : α → α → Option Bool)
    (hasym : ∀ a b, lt a b = some true → ¬ lt b a = some true)
    (l r : List α) (h : pySort lt l = some r) :
    r.Perm l ∧ r.Chain' (fun a b => lt b a ≠ some true) := by
  obtain ⟨hp, hc⟩ := pySort_go_props lt hasym l [] r h (by simp)
  exact ⟨by simpa using hp, hc⟩

lemma bodyAG_spec {T : Type} :
    ∀ (r r2 : String × AGNode T),
      ((do
        let accs ← pySort pyKeyLt r.2.accounts
        pure (r.1, { r.2 with accounts := accs }) : Option (String × AGNode T))
          = some r2) → AGRel r r2 := by
  intro r r2 h
  obtain ⟨accs, ha, h2⟩ := Option.bind_eq_some.mp h
  obtain ⟨hperm, hchain⟩ := pySort_props pyKeyLt pyKeyLt_asymm _ _ ha
  obtain rfl : (r.1, { r.2 with accounts := accs }) = r2 := Option.some_inj.mp h2
  exact ⟨rfl, rfl, rfl, hperm, hchain⟩

lemma bodyAG_eq_some {T : Type} :
    ∀ r : String × AGNode T,
      (∀ x ∈ r.2.accounts, ∀ y ∈ r.2.accounts, (pyKeyLt x y).isSome) →
      ∃ r2, ((do
        let accs ← pySort pyKeyLt r.2.accounts
        pure (r.1, { r.2 with accounts := accs }) : Option (String × AGNode T))
          = some r2) := by
  intro r hc
  obtain ⟨accs, ha, -, -⟩ := pySort_eq_some pyKeyLt pyKeyLt_asymm _ hc
  exact ⟨(r.1, { r.2 with accounts := accs }),
    Option.bind_eq_some.mpr ⟨accs, ha, rfl⟩⟩

lemma bodySG_spec {T : Type} :
    ∀ (q q2 : Int × SGNode T),
      ((do
        let ags ← pySort (fun r s => some (decide (r.1 < s.1))) q.2.groups
        let ags2 ← ags.mapM (fun r => do
          let accs ← pySort pyKeyLt r.2.accounts
          pure (r.1, { r.2 with accounts := accs }))
        pure (q.1, { q.2 with groups := ags2 }) : Option (Int × SGNode T))
          = some q2) → SGRel q q2 := by
  intro q q2 h
  obtain ⟨ags, ha, h2⟩ := Option.bind_eq_some.mp h
  obtain ⟨ags2, hm, h3⟩ := Option.bind_eq_some.mp h2
  obtain rfl : (q.1, { q.2 with groups := ags2 }) = q2 := Option.some_inj.mp h3
  obtain ⟨hperm, hchain⟩ := pySort_props _ strKeyLt_pair_asymm _ _ ha
  have hf2 := mapM_eq_some_forall₂ _ ags ags2 hm
  have hrel : List.Forall₂ AGRel ags ags2 :=
    hf2.imp (fun a b hx => bodyAG_spec a b hx)
  refine ⟨rfl, rfl, rfl, ⟨ags, hperm, hrel⟩, ?_⟩
  refine chain'_transfer (Q := AGRel)
    (R := fun r s => (fun r s : String × AGNode T =>
      some (decide (r.1 < s.1))) s r ≠ some true) ?_ hrel hchain
  intro a b a2 b2 hqa hqb hr
  intro hlt
  apply hr
  rw [hqa.1, hqb.1] at hlt
  simp [hlt]

lemma bodyMG_spec {Tm T : Type} :
    ∀ (p p2 : Int × MGNode Tm T),
      ((do
        let sgs ← pySort (fun p q => some (decide (p.1 < q.1))) p.2.supergroups
        let sgs2 ← sgs.mapM (fun q => do
          let ags ← pySort (fun r s => some (decide (r.1 < s.1))) q.2.groups
          let ags2 ← ags.mapM (fun r => do
            let accs ← pySort pyKeyLt r.2.accounts
            pure (r.1, { r.2 with accounts := accs }))
          pure (q.1, { q.2 with groups := ags2 }))
        pure (p.1, { p.2 with supergroups := sgs2 }) : Option (Int × MGNode Tm T))
          = some p2) → MGRel p p2 := by
  intro p p2 h
  obtain ⟨sgs, ha, h2⟩ := Option.bind_eq_some.mp h
  obtain ⟨sgs2, hm, h3⟩ := Option.bind_eq_some.mp h2
  obtain rfl : (p.1, { p.2 with supergroups := sgs2 }) = p2 := Option.some_inj.mp h3
  obtain ⟨hperm, hchain⟩ := pySort_props _ keyLt_pair_asymm _ _ ha
  have hf2 := mapM_eq_some_forall₂ _ sgs sgs2 hm
  have hrel : List.Forall₂ SGRel sgs sgs2 :=
    hf2.imp (fun a b hx => bodySG_spec a b hx)
  refine ⟨rfl, rfl, rfl, ⟨sgs, hperm, hrel⟩, ?_⟩
  refine chain'_transfer (Q := SGRel)
    (R := fun q r => (fun p q : Int × SGNode T =>
      some (decide (p.1 < q.1))) r q ≠ some true) ?_ hrel hchain
  intro a b a2 b2 hqa hqb hr
  intro hlt
  apply hr
  rw [hqa.1, hqb.1] at hlt
  simp [hlt]

lemma sort_grouped_structure_spec {Tm T : Type}
    (st out : List (Int × MGNode Tm T))
    (h : sort_grouped_structure st = some out) :
    (∃ mid, mid.Perm st ∧ List.Forall₂ MGRel mid out)
      ∧ out.Chain' (fun p q => ¬ q.1 < p.1) := by
  unfold sort_grouped_structure at h
  obtain ⟨mgs, ha, h2⟩ := Option.bind_eq_some.mp h
  obtain ⟨hperm, hchain⟩ := pySort_props _ keyLt_pair_asymm _ _ ha
  have hf2 := mapM_eq_some_forall₂ _ mgs out h2
  have hrel : List.Forall₂ MGRel mgs out :=
    hf2.imp (fun a b hx => bodyMG_spec a b hx)
  refine ⟨⟨mgs, hperm, hrel⟩, ?_⟩
  refine chain'_transfer (Q := MGRel)
    (R := fun p q => (fun p q : Int × MGNode Tm T =>
      some (decide (p.1 < q.1))) q p ≠ some true) ?_ hrel hchain
  intro a b a2 b2 hqa hqb hr
  intro hlt
  apply hr
  rw [hqa.1, hqb.1] at hlt
  simp [hlt]

lemma bodySG_eq_some {T : Type} :
    ∀ q : Int × SGNode T,
      (∀ r ∈ q.2.groups, ∀ x ∈ r.2.accounts, ∀ y ∈ r.2.accounts,
        (pyKeyLt x y).isSome) →
      ∃ q2, ((do
        let ags ← pySort (fun r s => some (decide (r.1 < s.1))) q.2.groups
        let ags2 ← ags.mapM (fun r => do
          let accs ← pySort pyKeyLt r.2.accounts
          pure (r.1, { r.2 with accounts := accs }))
        pure (q.1, { q.2 with groups := ags2 }) : Option (Int × SGNode T))
          = some q2) := by
  intro q hc
  obtain ⟨ags, ha, hperm, -⟩ := pySort_eq_some _ strKeyLt_pair_asymm q.2.groups
    (by intro a _ b _; simp)
  obtain ⟨ags2, hm, -⟩ := mapM_some _ ags (by
    intro r hr
    exact Option.isSome_iff_exists.mpr
      (bodyAG_eq_some r (hc r (hperm.mem_iff.mp hr))))
  exact ⟨(q.1, { q.2 with groups := ags2 }),
    Option.bind_eq_some.mpr ⟨ags, ha, Option.bind_eq_some.mpr ⟨ags2, hm, rfl⟩⟩⟩

lemma bodyMG_eq_some {Tm T : Type} :
    ∀ p : Int × MGNode Tm T,
      (∀ q ∈ p.2.supergroups, ∀ r ∈ q.2.groups,
        ∀ x ∈ r.2.accounts, ∀ y ∈ r.2.accounts, (pyKeyLt x y).isSome) →
      ∃ p2, ((do
        let sgs ← pySort (fun p q => some (decide (p.1 < q.1))) p.2.supergroups
        let sgs2 ← sgs.mapM (fun q => do
          let ags ← pySort (fun r s => some (decide (r.1 < s.1))) q.2.groups
          let ags2 ← ags.mapM (fun r => do
            let accs ← pySort pyKeyLt r.2.accounts
            pure (r.1, { r.2 with accounts := accs }))
          pure (q.1, { q.2 with groups := ags2 }))
        pure (p.1, { p.2 with supergroups := sgs2 }) : Option (Int × MGNode Tm T))
          = some p2) := by
  intro p hc
  obtain ⟨sgs, ha, hperm, -⟩ := pySort_eq_some _ keyLt_pair_asymm p.2.supergroups
    (by intro a _ b _; simp)
  obtain ⟨sgs2, hm, -⟩ := mapM_some _ sgs (by
    intro q hq
    exact Option.isSome_iff_exists.mpr
      (bodySG_eq_some q (hc q (hperm.mem_iff.mp hq))))
  exact ⟨(p.1, { p.2 with supergroups := sgs2 }),
    Option.bind_eq_some.mpr ⟨sgs, ha, Option.bind_eq_some.mpr ⟨sgs2, hm, rfl⟩⟩⟩

lemma sort_grouped_structure_eq_some {Tm T : Type}
    (st : List (Int × MGNode Tm T)) (hc : allComparable st) :
    ∃ out, sort_grouped_structure st = some out := by
  obtain ⟨mgs, ha, hperm, -⟩ := pySort_eq_some _ keyLt_pair_asymm st
    (by intro a _ b _; simp)
  obtain ⟨out, hm, -⟩ := mapM_some _ mgs (by
    intro p hp
    exact Option.isSome_iff_exists.mpr
      (bodyMG_eq_some p (hc p (hperm.mem_iff.mp hp))))
  refine ⟨out, ?_⟩
  unfold sort_grouped_structure
  exact Option.bind_eq_some.mpr ⟨mgs, ha, hm⟩

-- ----- Totals additivity of the grouped structure ---------------------------

lemma forall_updAssoc {κ δ : Type} [BEq κ] (P : κ × δ → Prop)
    (k : κ) (d : δ) (f : δ → δ) :
    ∀ l : List (κ × δ), (∀ v ∈ l, P v) → P (k, f d) →
      (∀ v ∈ l, P v → P (v.1, f v.2)) →
      ∀ v ∈ updAssoc l k d f, P v := by
  intro l
  induction l with
  | nil =>
    intro _ hd _ v hv
    simp only [updAssoc, List.mem_singleton] at hv
    rw [hv]
    exact hd
  | cons p rest ih =>
    intro hl hd hf v hv
    unfold updAssoc at hv
    split at hv
    · rcases List.mem_cons.mp hv with rfl | hv2
      · exact hf p (by simp) (hl p (by simp))
      · exact hl v (by simp [hv2])
    · rcases List.mem_cons.mp hv with rfl | hv2
      · exact hl v (by simp)
      · exact ih (fun w hw => hl w (by simp [hw])) hd
          (fun w hw hPw => hf w (by simp [hw]) hPw) v hv2

lemma sum_updAssoc {κ δ : Type} [BEq κ] (g : δ → Rat) (c : Rat)
    (k : κ) (d : δ) (f : δ → δ)
    (hf : ∀ x, g (f x) = g x + c) (hd : g d = 0) :
    ∀ l : List (κ × δ),
      ((updAssoc l k d f).map (fun v => g v.2)).sum
        = (l.map (fun v => g v.2)).sum + c := by
  intro l
  induction l with
  | nil => simp [updAssoc, hf, hd]
  | cons p rest ih =>
    unfold updAssoc
    split
    · simp only [List.map_cons, List.sum_cons, hf]
      ring
    · simp only [List.map_cons, List.sum_cons, ih]
      ring

lemma build_grouped_step_eq {Tm T : Type} (addM : Tm → XAccount → Tm) (zM : Tm)
    (addT : T → XAccount → T) (zT : T)
    (st : List (Int × MGNode Tm T)) (x : XAccount)
    (g : AccountGroupRef) (sg : SuperGroupRef) (mg : MetaGroupRef)
    (hg : x.acc.group = some g) (hsg : g.supergroup = some sg)
    (hmg : sg.metagroup = some mg) :
    build_grouped_step addM zM addT zT st x
      = updAssoc st mg.code ⟨mg.label, [], zM⟩ (fun m =>
          { m with
            tot := addM m.tot x
            supergroups := updAssoc m.supergroups sg.code ⟨sg.label, [], zT⟩ (fun s =>
              { s with
                tot := addT s.tot x
                groups := updAssoc s.groups g.code ⟨g.label, [], zT⟩ (fun agn =>
                  { agn with
                    accounts := agn.accounts ++ [x]
                    tot := addT agn.tot x }) }) }) := by
  unfold build_grouped_step
  rw [hg]
  simp only [hsg, hmg]

lemma build_grouped_step_skip {Tm T : Type} (addM : Tm → XAccount → Tm) (zM : Tm)
    (addT : T → XAccount → T) (zT : T)
    (st : List (Int × MGNode Tm T)) (x : XAccount)
    (h : x.acc.group = none
      ∨ (∃ g, x.acc.group = some g ∧ g.supergroup = none)
      ∨ (∃ g sg, x.acc.group = some g ∧ g.supergroup = some sg
          ∧ sg.metagroup = none)) :
    build_grouped_step addM zM addT zT st x = st := by
  unfold build_grouped_step
  rcases h with hg | ⟨g, hg, hsg⟩ | ⟨g, sg, hg, hsg, hmg⟩
  · rw [hg]
  · rw [hg]
    simp only [hsg]
  · rw [hg]
    simp only [hsg, hmg]

lemma build_grouped_step_subInv {Tm F : Type} (addM : Tm → XAccount → Tm)
    (zM : Tm) (proj : F → XAccount → Rat)
    (st : List (Int × MGNode Tm (F → Rat))) (x : XAccount)
    (hst : ∀ p ∈ st, mgSubInv proj p.2) :
    ∀ p ∈ build_grouped_step addM zM
      (fun t y f => t f + proj f y) (fun _ => 0) st x, mgSubInv proj p.2 := by
  intro p hp
  rcases hg : x.acc.group with - | g
  · rw [build_grouped_step_skip _ _ _ _ _ _ (Or.inl hg)] at hp
    exact hst p hp
  rcases hsg : g.supergroup with - | sg
  · rw [build_grouped_step_skip _ _ _ _ _ _ (Or.inr (Or.inl ⟨g, hg, hsg⟩))] at hp
    exact hst p hp
  rcases hmg : sg.metagroup with - | mg
  · rw [build_grouped_step_skip _ _ _ _ _ _
      (Or.inr (Or.inr ⟨g, sg, hg, hsg, hmg⟩))] at hp
    exact hst p hp
  rw [build_grouped_step_eq _ _ _ _ _ _ _ _ _ hg hsg hmg] at hp
  have hnewSG : sgInv proj
      { label := sg.label
        groups := updAssoc ([] : List (String × AGNode (F → Rat)))
          g.code ⟨g.label, [], fun _ => 0⟩
          (fun agn => { agn with
            accounts := agn.accounts ++ [x]
            tot := fun f2 => agn.tot f2 + proj f2 x })
        tot := fun f2 => (0 : Rat) + proj f2 x } := by
    refine ⟨?_, ?_⟩
    · intro f
      simp [updAssoc]
    · intro r hr
      simp only [updAssoc, List.mem_singleton] at hr
      rw [hr]
      intro f
      simp
  refine forall_updAssoc (fun v => mgSubInv proj v.2) mg.code _ _ st
    hst ?_ ?_ p hp
  · intro q hq
    simp only [updAssoc, List.mem_singleton] at hq
    rw [hq]
    exact hnewSG
  · intro v hv hPv q hq
    refine forall_updAssoc (fun w => sgInv proj w.2) sg.code _ _
      v.2.supergroups hPv ?_ ?_ q hq
    · exact hnewSG
    · intro w hw hWs
      refine ⟨?_, ?_⟩
      · intro f
        have hs := sum_updAssoc (fun agn : AGNode (F → Rat) => agn.tot f)
          (proj f x) g.code (⟨g.label, [], fun _ => 0⟩ : AGNode (F → Rat))
          (fun agn => { agn with
            accounts := agn.accounts ++ [x]
            tot := fun f2 => agn.tot f2 + proj f2 x })
          (fun a => rfl) rfl w.2.groups
        show w.2.tot f + proj f x = _
        rw [hs, hWs.1 f]
      · refine forall_updAssoc (fun r => agInv proj r.2) g.code _ _
          w.2.groups hWs.2 ?_ ?_
        · intro f
          simp
        · intro r hr hAr f
          show r.2.tot f + proj f x = _
          simp [hAr f]

lemma build_grouped_step_totInv {F : Type} (proj : F → XAccount → Rat)
    (st : List (Int × MGNode (F → Rat) (F → Rat))) (x : XAccount)
    (hst : ∀ p ∈ st, mgTotInv proj p.2) :
    ∀ p ∈ build_grouped_step (fun t y f => t f + proj f y) (fun _ => 0)
      (fun t y f => t f + proj f y) (fun _ => 0) st x, mgTotInv proj p.2 := by
  intro p hp
  rcases hg : x.acc.group with - | g
  · rw [build_grouped_step_skip _ _ _ _ _ _ (Or.inl hg)] at hp
    exact hst p hp
  rcases hsg : g.supergroup with - | sg
  · rw [build_grouped_step_skip _ _ _ _ _ _ (Or.inr (Or.inl ⟨g, hg, hsg⟩))] at hp
    exact hst p hp
  rcases hmg : sg.metagroup with - | mg
  · rw [build_grouped_step_skip _ _ _ _ _ _
      (Or.inr (Or.inr ⟨g, sg, hg, hsg, hmg⟩))] at hp
    exact hst p hp
  rw [build_grouped_step_eq _ _ _ _ _ _ _ _ _ hg hsg hmg] at hp
  refine forall_updAssoc (fun v => mgTotInv proj v.2) mg.code _ _ st
    hst ?_ ?_ p hp
  · intro f
    simp [updAssoc]
  · intro v hv hPv f
    have hs := sum_updAssoc (fun s : SGNode (F → Rat) => s.tot f)
      (proj f x) sg.code (⟨sg.label, [], fun _ => 0⟩ : SGNode (F → Rat))
      (fun s => { s with
        tot := fun f2 => s.tot f2 + proj f2 x
        groups := updAssoc s.groups g.code ⟨g.label, [], fun _ => 0⟩
          (fun agn => { agn with
            accounts := agn.accounts ++ [x]
            tot := fun f2 => agn.tot f2 + proj f2 x }) })
      (fun s => rfl) rfl v.2.supergroups
    show v.2.tot f + proj f x = _
    rw [hs, hPv f]

lemma build_grouped_raw_subInv {Tm F : Type} (addM : Tm → XAccount → Tm)
    (zM : Tm) (proj : F → XAccount → Rat) (accounts : List XAccount) :
    ∀ p ∈ build_grouped_raw addM zM
      (fun t y f => t f + proj f y) (fun _ => 0) accounts, mgSubInv proj p.2 := by
  unfold build_grouped_raw
  suffices h : ∀ st, (∀ p ∈ st, mgSubInv proj p.2) →
      ∀ p ∈ accounts.foldl (build_grouped_step addM zM
        (fun t y f => t f + proj f y) (fun _ => 0)) st, mgSubInv proj p.2 by
    exact h [] (by simp)
  induction accounts with
  | nil => intro st h; simpa using h
  | cons x xs ih =>
    intro st h
    simp only [List.foldl_cons]
    exact ih _ (build_grouped_step_subInv addM zM proj st x h)

lemma build_grouped_raw_totInv {F : Type} (proj : F → XAccount → Rat)
    (accounts : List XAccount) :
    ∀ p ∈ build_grouped_raw (fun t y f => t f + proj f y) (fun _ => 0)
      (fun t y f => t f + proj f y) (fun _ => 0) accounts, mgTotInv proj p.2 := by
  unfold build_grouped_raw
  suffices h : ∀ st, (∀ p ∈ st, mgTotInv proj p.2) →
      ∀ p ∈ accounts.foldl (build_grouped_step (fun t y f => t f + proj f y)
        (fun _ => 0) (fun t y f => t f + proj f y) (fun _ => 0)) st,
        mgTotInv proj p.2 by
    exact h [] (by simp)
  induction accounts with
  | nil => intro st h; simpa using h
  | cons x xs ih =>
    intro st h
    simp only [List.foldl_cons]
    exact ih _ (build_grouped_step_totInv proj st x h)

lemma forall₂_sum_eq {α β : Type} {Q : α → β → Prop} (g : α → Rat) (g2 : β → Rat)
    (h : ∀ a b, Q a b → g2 b = g a) :
    ∀ {l : List α} {r : List β}, List.Forall₂ Q l r →
      (r.map g2).sum = (l.map g).sum := by
  intro l r hf
  induction hf with
  | nil => rfl
  | cons ha ht ih => simp [h _ _ ha, ih]

lemma agInv_of_AGRel {F : Type} (proj : F → XAccount → Rat)
    {r r2 : String × AGNode (F → Rat)}
    (hrel : AGRel r r2) (h : agInv proj r.2) : agInv proj r2.2 := by
  intro f
  rw [show r2.2.tot = r.2.tot from hrel.2.2.1, h f]
  exact ((hrel.2.2.2.1.map (proj f)).sum_eq).symm

lemma sgInv_of_SGRel {F : Type} (proj : F → XAccount → Rat)
    {q q2 : Int × SGNode (F → Rat)}
    (hrel : SGRel q q2) (h : sgInv proj q.2) : sgInv proj q2.2 := by
  obtain ⟨-, -, htot, ⟨mid, hperm, hf2⟩, -⟩ := hrel
  constructor
  · intro f
    rw [htot, h.1 f]
    have h1 : ((q2.2.groups.map (fun r => r.2.tot f)).sum)
        = ((mid.map (fun r => r.2.tot f)).sum) :=
      forall₂_sum_eq _ _ (fun a b hab => by rw [hab.2.2.1]) hf2
    have h2 : ((mid.map (fun r => r.2.tot f)).sum)
        = ((q.2.groups.map (fun r => r.2.tot f)).sum) :=
      (hperm.map _).sum_eq
    rw [h1, h2]
  · intro r2 hr2
    obtain ⟨r, hr, hab⟩ := forall₂_mem_right hf2 r2 hr2
    exact agInv_of_AGRel proj hab (h.2 r (hperm.mem_iff.mp hr))

lemma mgSubInv_of_MGRel {Tm F : Type} (proj : F → XAccount → Rat)
    {p p2 : Int × MGNode Tm (F → Rat)}
    (hrel : MGRel p p2) (h : mgSubInv proj p.2) : mgSubInv proj p2.2 := by
  obtain ⟨-, -, -, ⟨mid, hperm, hf2⟩, -⟩ := hrel
  intro q2 hq2
  obtain ⟨q, hq, hqr⟩ := forall₂_mem_right hf2 q2 hq2
  exact sgInv_of_SGRel proj hqr (h q (hperm.mem_iff.mp hq))

lemma mgTotInv_of_MGRel {F : Type} (proj : F → XAccount → Rat)
    {p p2 : Int × MGNode (F → Rat) (F → Rat)}
    (hrel : MGRel p p2) (h : mgTotInv proj p.2) : mgTotInv proj p2.2 := by
  obtain ⟨-, -, htot, ⟨mid, hperm, hf2⟩, -⟩ := hrel
  intro f
  rw [htot, h f]
  have h1 : ((p2.2.supergroups.map (fun q => q.2.tot f)).sum)
      = ((mid.map (fun q => q.2.tot f)).sum) :=
    forall₂_sum_eq _ _ (fun a b hab => by rw [hab.2.2.1]) hf2
  have h2 : ((mid.map (fun q => q.2.tot f)).sum)
      = ((p.2.supergroups.map (fun q => q.2.tot f)).sum) :=
    (hperm.map _).sum_eq
  rw [h1, h2]

-- ----- C5: hierarchy additivity ---------------------------------------------

/-- C5: hierarchy additivity of `build_grouped_structure` (both mixins).
Whenever the builders return a structure, every group's totals for every
monetary field it carries equal the sum of its children's corresponding
totals, recursively down to the leaf accounts: in the account explorer
each super-group total is the sum of its account-group totals and each
account-group total is the sum of that field over its leaf accounts
(`mgSubInv`, the meta dict carrying no totals); in the budget explorer
additionally each meta-group total is the sum of its super-group totals
(`mgTotInv`). -/
theorem build_grouped_structure_totals (accounts : List XAccount)
    (outA : List (Int × MGNode PUnit (AField → Rat)))
    (outB : List (Int × MGNode (BField → Rat) (BField → Rat)))
    (hA : account_build_grouped_structure accounts = some outA)
    (hB : budget_build_grouped_structure accounts = some outB) :
    (∀ p ∈ outA, mgSubInv aProj p.2)
      ∧ ∀ p ∈ outB, mgSubInv bProj p.2 ∧ mgTotInv bProj p.2 := by
  constructor
  · unfold account_build_grouped_structure at hA
    obtain ⟨⟨mid, hperm, hrel⟩, -⟩ := sort_grouped_structure_spec _ _ hA
    intro p2 hp2
    obtain ⟨p, hp, hmg⟩ := forall₂_mem_right hrel p2 hp2
    exact mgSubInv_of_MGRel aProj hmg
      (build_grouped_raw_subInv _ _ aProj accounts p (hperm.mem_iff.mp hp))
  · unfold budget_build_grouped_structure at hB
    obtain ⟨⟨mid, hperm, hrel⟩, -⟩ := sort_grouped_structure_spec _ _ hB
    intro p2 hp2
    obtain ⟨p, hp, hmg⟩ := forall₂_mem_right hrel p2 hp2
    have hpmem := hperm.mem_iff.mp hp
    exact ⟨mgSubInv_of_MGRel bProj hmg
        (build_grouped_raw_subInv _ _ bProj accounts p hpmem),
      mgTotInv_of_MGRel bProj hmg
        (build_grouped_raw_totInv bProj accounts p hpmem)⟩

/-- C5 (witness): the additivity statement at the concrete account list
containing the single reconciled account `wActX`, on which both builders
succeed. -/
theorem build_grouped_structure_totals_witness :
    ∃ outA outB, account_build_grouped_structure [wActX] = some outA
      ∧ budget_build_grouped_structure [wActX] = some outB
      ∧ ((∀ p ∈ outA, mgSubInv aProj p.2)
        ∧ ∀ p ∈ outB, mgSubInv bProj p.2 ∧ mgTotInv bProj p.2) := by
  obtain ⟨outA, hA⟩ := Option.isSome_iff_exists.mp
    (show (account_build_grouped_structure [wActX]).isSome by
      with_unfolding_all decide)
  obtain ⟨outB, hB⟩ := Option.isSome_iff_exists.mp
    (show (budget_build_grouped_structure [wActX]).isSome by
      with_unfolding_all decide)
  exact ⟨outA, outB, hA, hB,
    build_grouped_structure_totals [wActX] outA outB hA hB⟩

-- ----- C9: sorting the grouped structure ------------------------------------

/-- C9: refutation of the original claim.  It is not true that
`sort_grouped_structure` returns a sorted structure for *every* input: on
the structure built from two accounts that tie on `(function, nature)`
where exactly one of them has a sub-account, the Python sort key mixes
`str` (the `""` standing for a missing sub-account) with `int`, `sorted`
raises `TypeError`, and no structure is returned at all — rather than
ordering the `None` sub-account first. -/
theorem sort_grouped_structure_counterexample :
    account_build_grouped_structure [cexMixA, cexMixB] = none
      ∧ pyKeyLt cexMixB cexMixA = none ∧ pyKeyLt cexMixA cexMixB = none := by
  refine ⟨?_, ?_, ?_⟩ <;> with_unfolding_all rfl

/-- C9 (amended): whenever every pair of leaf accounts sharing an
account-group has comparable sort keys (no group mixes accounts with and
without a sub-account on tied `(function, nature)` — zero sub-accounts
counting as absent), `sort_grouped_structure` succeeds, its output is a
key-preserving, total-preserving reordering of the input (`MGRel` level by
level), sibling meta-groups, super-groups and account-groups are ordered
by code ascending at every level, and the leaf accounts of every group
are ordered by the Python key `(function, nature, sub_account or "")`. -/
theorem sort_grouped_structure_amended {Tm T : Type}
    (st : List (Int × MGNode Tm T)) (hc : allComparable st) :
    ∃ out, sort_grouped_structure st = some out
      ∧ (∃ mid, mid.Perm st ∧ List.Forall₂ MGRel mid out)
      ∧ out.Chain' (fun p q => ¬ q.1 < p.1)
      ∧ ∀ p2 ∈ out, p2.2.supergroups.Chain' (fun q r => ¬ r.1 < q.1)
        ∧ ∀ q2 ∈ p2.2.supergroups, q2.2.groups.Chain' (fun r s => ¬ s.1 < r.1)
          ∧ ∀ r2 ∈ q2.2.groups,
              r2.2.accounts.Chain' (fun x y => pyKeyLt y x ≠ some true) := by
  obtain ⟨out, hout⟩ := sort_grouped_structure_eq_some st hc
  obtain ⟨hmid, hchain⟩ := sort_grouped_structure_spec st out hout
  refine ⟨out, hout, hmid, hchain, ?_⟩
  obtain ⟨mid, hperm, hrel⟩ := hmid
  intro p2 hp2
  obtain ⟨p, hp, hmg⟩ := forall₂_mem_right hrel p2 hp2
  refine ⟨hmg.2.2.2.2, ?_⟩
  intro q2 hq2
  obtain ⟨midS, hpermS, hrelS⟩ := hmg.2.2.2.1
  obtain ⟨q, hq, hsg⟩ := forall₂_mem_right hrelS q2 hq2
  refine ⟨hsg.2.2.2.2, ?_⟩
  intro r2 hr2
  obtain ⟨midA, hpermA, hrelA⟩ := hsg.2.2.2.1
  obtain ⟨r, hr, hag⟩ := forall₂_mem_right hrelA r2 hr2
  exact hag.2.2.2.2

/-- C9 (witness): the amended statement at the concrete raw structure over
one account (all sort keys trivially comparable). -/
theorem sort_grouped_structure_amended_witness :
    allComparable wAccountRaw
      ∧ ∃ out, sort_grouped_structure wAccountRaw = some out
        ∧ (∃ mid, mid.Perm wAccountRaw ∧ List.Forall₂ MGRel mid out)
        ∧ out.Chain' (fun p q => ¬ q.1 < p.1)
        ∧ ∀ p2 ∈ out, p2.2.supergroups.Chain' (fun q r => ¬ r.1 < q.1)
          ∧ ∀ q2 ∈ p2.2.supergroups, q2.2.groups.Chain' (fun r s => ¬ s.1 < r.1)
            ∧ ∀ r2 ∈ q2.2.groups,
                r2.2.accounts.Chain' (fun x y => pyKeyLt y x ≠ some true) :=
  ⟨by unfold allComparable; with_unfolding_all decide,
    sort_grouped_structure_amended wAccountRaw
      (by unfold allComparable; with_unfolding_all decide)⟩

end Budgetis
